import Mathlib

/-!
Shallow embedding of the application core of the `hn` terminal client
(`src/list_view.rs`, `src/comment_view.rs`, `src/state.rs` and the small
data modules they use), together with proofs about the embedded code.

Conventions:
* Rust `Vec<T>` is `List T`; `Vec::get`/`get_mut` become `List.get?` /
  guarded `List.set`; `usize` arithmetic uses `Nat` (Rust `saturating_sub`
  is `Nat` subtraction, `saturating_add` cannot overflow on the sizes the
  program handles and is plain `+`).
* `Option::take` becomes reading the value and storing `none`.
* Fallible results (`anyhow::Result<T>`) are `Except String T`.
* Loops that walk parent links in the comment arena are given explicit
  fuel; for the arenas the program builds (parent index strictly below
  child index) the fuel used is provably sufficient.
-/

set_option linter.unusedVariables false

/-- `src/list_view.rs`: a flat list with a stored selection and scroll
offset.  Fields mirror the Rust struct. -/
structure ListView (α : Type) where
  items : List α
  offset : Nat
  selected : Nat
  deriving DecidableEq

/-- `ListView::default`. -/
def ListView.default (α : Type) : ListView α :=
  { items := [], offset := 0, selected := 0 }

/-- `ListView::new`. -/
def ListView.new (items : List α) : ListView α :=
  { items := items, offset := 0, selected := 0 }

/-- `ListView::extend`: append-only growth. -/
def ListView.extend (v : ListView α) (more : List α) : ListView α :=
  { v with items := v.items ++ more }

/-- `ListView::is_empty`. -/
def ListView.is_empty (v : ListView α) : Bool :=
  v.items.isEmpty

/-- `ListView::len`. -/
def ListView.len (v : ListView α) : Nat :=
  v.items.length

/-- `ListView::selected_index`: `none` when empty, otherwise the stored
selection clamped to the last index. -/
def ListView.selected_index (v : ListView α) : Option Nat :=
  if v.items.isEmpty then none
  else some (min v.selected (v.items.length - 1))

/-- `ListView::offset` (the getter): clamps the stored offset below the
clamped selection, and is `0` on an empty view. -/
def ListView.offsetVal (v : ListView α) : Nat :=
  let selected := (v.selected_index).getD 0
  if v.items.isEmpty then 0 else min v.offset selected

/-- `ListView::selected_item`. -/
def ListView.selected_item (v : ListView α) : Option α :=
  v.selected_index.bind fun index => v.items.get? index

/-- `ListView::selected_raw`: the stored selection, unclamped. -/
def ListView.selected_raw (v : ListView α) : Nat :=
  v.selected

/-- `ListView::set_offset`: clamps into `[0, len-1]`, resets to `0` when
empty. -/
def ListView.set_offset (v : ListView α) (offset : Nat) : ListView α :=
  if v.items.isEmpty then { v with offset := 0 }
  else { v with offset := min offset (v.items.length - 1) }

/-- `ListView::set_selected`: clamps into `[0, len-1]`, resets to `0` when
empty. -/
def ListView.set_selected (v : ListView α) (index : Nat) : ListView α :=
  if v.items.isEmpty then { v with selected := 0 }
  else { v with selected := min index (v.items.length - 1) }

/-- `src/comment_entry.rs`: one arena node of the comment tree.
`parent`/`children` are indices into the arena. -/
structure CommentEntry where
  author : Option String
  body : String
  children : List Nat
  dead : Bool
  deleted : Bool
  depth : Nat
  expanded : Bool
  id : Nat
  parent : Option Nat
  deriving DecidableEq

/-- `src/comment.rs`: a raw fetched comment subtree. -/
inductive Comment where
  | mk (author : Option String) (children : List Comment) (dead : Bool)
      (deleted : Bool) (id : Nat) (text : Option String)

def Comment.author : Comment → Option String
  | .mk a _ _ _ _ _ => a

def Comment.children : Comment → List Comment
  | .mk _ c _ _ _ _ => c

def Comment.dead : Comment → Bool
  | .mk _ _ d _ _ _ => d

def Comment.deleted : Comment → Bool
  | .mk _ _ _ d _ _ => d

def Comment.id : Comment → Nat
  | .mk _ _ _ _ i _ => i

def Comment.text : Comment → Option String
  | .mk _ _ _ _ _ t => t

/-- `src/comment_thread.rs`: a fetched discussion thread. -/
structure CommentThread where
  focus : Option Nat
  roots : List Comment
  title : String
  url : Option String

/-- `src/comment_view.rs`: the tree view state. -/
structure CommentView where
  entries : List CommentEntry
  link : String
  offset : Nat
  selected : Option Nat
  deriving DecidableEq

/-- Set the element of `l` at `i` to `f` of the old value; identity when
`i` is out of range (mirrors guarded `get_mut` patterns). -/
def listModify (l : List α) (i : Nat) (f : α → α) : List α :=
  match l.get? i with
  | some a => l.set i (f a)
  | none => l

/-- One step of the `is_visible` parent walk: the parent of node `i`
in the arena, if any. -/
def parentOf (entries : List CommentEntry) (i : Nat) : Option Nat :=
  (entries.get? i).bind CommentEntry.parent

/-- The `expanded` test the `is_visible` loop applies to a parent index:
a missing arena entry poses no obstacle (the loop keeps walking). -/
def expandedAt (entries : List CommentEntry) (i : Nat) : Bool :=
  match entries.get? i with
  | some e => e.expanded
  | none => true

/-- The loop body of `CommentView::is_visible`, with fuel.  The Rust loop
walks parent links; on the arenas the program builds every parent index is
strictly below its child, so fuel `i + 1` never runs out (see
`visibleStep_fuel_invariant`). -/
def visibleStep (entries : List CommentEntry) : Nat → Nat → Bool
  | 0, _ => true
  | fuel + 1, i =>
    match parentOf entries i with
    | none => true
    | some p =>
      if expandedAt entries p then visibleStep entries fuel p else false

/-- `CommentView::is_visible`. -/
def CommentView.is_visible (v : CommentView) (idx : Nat) : Bool :=
  visibleStep v.entries (idx + 1) idx

/-- The chain of ancestors of `i` obtained by following parent links, with
fuel, eldest last.  This is the index set the `is_visible` loop inspects. -/
def ancestorChain (entries : List CommentEntry) : Nat → Nat → List Nat
  | 0, _ => []
  | fuel + 1, i =>
    match parentOf entries i with
    | none => []
    | some p => p :: ancestorChain entries fuel p

/-- The ancestors of node `idx`: every index reached from `idx` by
following parent links up to a root. -/
def CommentView.ancestors (v : CommentView) (idx : Nat) : List Nat :=
  ancestorChain v.entries (idx + 1) idx

/-- `CommentView::visible_indexes`: ascending arena order restricted to
visible nodes. -/
def CommentView.visible_indexes (v : CommentView) : List Nat :=
  (List.range v.entries.length).filter v.is_visible

/-- `CommentView::visible_with_selection`. -/
def CommentView.visible_with_selection (v : CommentView) :
    List Nat × Option Nat :=
  let visible := v.visible_indexes
  (visible, v.selected.bind fun selected => visible.indexOf? selected)

/-- The upward walk of `CommentView::ensure_selection_visible`, with fuel:
the first visible node on the chain starting at the current selection. -/
def findVisibleUp (entries : List CommentEntry) :
    Nat → Option Nat → Option Nat
  | _, none => none
  | 0, some _ => none
  | fuel + 1, some i =>
    if visibleStep entries (i + 1) i then some i
    else findVisibleUp entries fuel (parentOf entries i)

/-- `CommentView::ensure_selection_visible`. -/
def CommentView.ensure_selection_visible (v : CommentView) : CommentView :=
  match v.selected with
  | none => { v with selected := v.visible_indexes.head? }
  | some i =>
    match findVisibleUp v.entries (i + 1) (some i) with
    | some j => { v with selected := some j }
    | none => { v with selected := v.visible_indexes.head? }

/-- `CommentView::collapse_selected`. -/
def CommentView.collapse_selected (v : CommentView) : CommentView :=
  let v' :=
    match v.selected with
    | none => v
    | some selected =>
      match v.entries.get? selected with
      | none => v
      | some entry =>
        if entry.expanded ∧ entry.children ≠ [] then
          { v with entries := listModify v.entries selected (fun e => { e with expanded := false }) }
        else
          match entry.parent with
          | some parent => { v with selected := some parent }
          | none => v
  v'.ensure_selection_visible

/-- `CommentView::expand_selected`. -/
def CommentView.expand_selected (v : CommentView) : CommentView :=
  let v' :=
    match v.selected with
    | none => v
    | some selected =>
      match v.entries.get? selected with
      | none => v
      | some entry =>
        if entry.children = [] then v
        else if entry.expanded then
          match entry.children.head? with
          | some child => { v with selected := some child }
          | none => v
        else
          { v with entries := listModify v.entries selected (fun e => { e with expanded := true }) }
  if (match v.selected with
      | none => false
      | some selected =>
        match v.entries.get? selected with
        | some entry => entry.children = []
        | none => false) then v'
  else v'.ensure_selection_visible

/-- `CommentView::toggle_selected`. -/
def CommentView.toggle_selected (v : CommentView) : CommentView :=
  let v' :=
    match v.selected with
    | none => v
    | some selected =>
      match v.entries.get? selected with
      | none => v
      | some entry =>
        if entry.children = [] then v
        else
          { v with entries := listModify v.entries selected (fun e => { e with expanded := !e.expanded }) }
  if (match v.selected with
      | none => false
      | some selected =>
        match v.entries.get? selected with
        | some entry => entry.children = []
        | none => false) then v'
  else v'.ensure_selection_visible

/-- Well-formed arena: every parent link points strictly below its child.
Every arena `CommentView::new` builds satisfies this (`push_comment`
records the parent's index before pushing the children). -/
def ParentsBelow (entries : List CommentEntry) : Prop :=
  ∀ i e, entries.get? i = some e → ∀ p, e.parent = some p → p < i

/-- Decidable check for `ParentsBelow` on a concrete arena. -/
def parentsBelowB (entries : List CommentEntry) : Bool :=
  (List.range entries.length).all fun i =>
    match entries.get? i with
    | some e =>
      match e.parent with
      | some p => decide (p < i)
      | none => true
    | none => true

/-- Directly clearing the `expanded` flag of node `n` in the arena, as the
collapse operations (and the source's tests) do. -/
def CommentView.collapseAt (v : CommentView) (n : Nat) : CommentView :=
  { v with entries := listModify v.entries n (fun e => { e with expanded := false }) }

/-- Arena for the C8 witness: an unexpanded root with one child, the
(invisible) child selected. -/
def sampleTreeRepair : CommentView :=
  { entries :=
      [{ author := some "user1", body := "comment 1", children := [1],
         dead := false, deleted := false, depth := 0, expanded := false,
         id := 1, parent := none },
       { author := some "user2", body := "comment 2", children := [],
         dead := false, deleted := false, depth := 1, expanded := true,
         id := 2, parent := some 0 }],
    link := "fallback", offset := 0, selected := some 1 }

/-- Arena for the C2 witness: an expanded root with one child. -/
def sampleTreeVisibility : CommentView :=
  { entries :=
      [{ author := some "user1", body := "comment 1", children := [1],
         dead := false, deleted := false, depth := 0, expanded := true,
         id := 1, parent := none },
       { author := some "user2", body := "comment 2", children := [],
         dead := false, deleted := false, depth := 1, expanded := true,
         id := 2, parent := some 0 }],
    link := "fallback", offset := 0, selected := some 0 }

/-- Arena for the C9 witness: an expanded root with one child, root
selected. -/
def sampleTreeCollapse : CommentView :=
  { entries :=
      [{ author := some "user1", body := "comment 1", children := [1],
         dead := false, deleted := false, depth := 0, expanded := true,
         id := 1, parent := none },
       { author := some "user2", body := "comment 2", children := [],
         dead := false, deleted := false, depth := 1, expanded := true,
         id := 2, parent := some 0 }],
    link := "fallback", offset := 0, selected := some 0 }

/-! ### The application state (`src/state.rs`) and its collaborators. -/

/-- `src/list_entry.rs`: a flat list row. -/
structure ListEntry where
  detail : Option String
  id : String
  title : String
  url : Option String
  deriving DecidableEq

/-- `ListEntry::resolved_url`. -/
def ListEntry.resolved_url (e : ListEntry) : String :=
  match e.url with
  | some url =>
    if url = "" then "https://news.ycombinator.com/item?id=" ++ e.id else url
  | none => "https://news.ycombinator.com/item?id=" ++ e.id

/-- `src/utils.rs`: `truncate` (character-based; the Rust `trim_end` after
appending `"..."` is a no-op since the result never ends in whitespace). -/
def truncate (text : String) (maxChars : Nat) : String :=
  if text.length ≤ maxChars then text
  else ((text.toList.take maxChars).asString ++ "...").trimRight

/-- `src/category.rs`. -/
inductive CategoryKind where
  | Bookmarks
  | Comments
  | Search
  | Stories (endpoint : String)
  deriving DecidableEq

/-- `src/category.rs`. -/
structure Category where
  kind : CategoryKind
  label : String
  deriving DecidableEq

/-- `Tab` as `src/state.rs` constructs and uses it (`category`,
`has_more`, `label`; the snapshot's `tab.rs` is a stale earlier version
with extra fields state.rs never touches). -/
structure Tab where
  category : Category
  has_more : Bool
  label : String
  deriving DecidableEq

/-- `src/effect.rs`: side-effecting intents the core emits. -/
inductive Effect where
  | FetchComments (item_id : Nat) (request_id : Nat)
  | FetchSearchResults (query : String) (request_id : Nat)
  | FetchTabItems (tab_index : Nat) (category : Category) (offset : Nat)
  | OpenUrl (url : String)
  deriving DecidableEq

/-- Events as matched by `State::handle_event` (`src/state.rs`; the
snapshot's `event.rs` carries a stale naming of the same three variants). -/
inductive Event where
  | TabItems (tab_index : Nat) (result : Except String (List ListEntry))
  | SearchResults (request_id : Nat)
      (result : Except String (List ListEntry × Bool))
  | Comments (request_id : Nat) (result : Except String CommentThread)

/-- The command vocabulary, read off the match in
`State::dispatch_command` (its defining module is outside `src/`). -/
inductive Command where
  | Quit
  | ShowHelp
  | HideHelp
  | StartSearch
  | CancelSearch
  | SubmitSearch
  | SwitchTabLeft
  | SwitchTabRight
  | SelectNext
  | SelectPrevious
  | PageDown
  | PageUp
  | SelectFirst
  | OpenComments
  | OpenCurrentInBrowser
  | OpenCommentLink
  | CloseComments
  | ToggleBookmark
  | None
  deriving DecidableEq

/-- Modelled from the spec: `CommandDispatch` (returned by
`dispatch_command`, defined outside `src/`): the effects taken from the
state plus the exit flag. -/
structure CommandDispatch where
  effects : List Effect
  should_exit : Bool
  deriving DecidableEq

/-- Modelled from the spec: `PendingComment` (defined outside `src/`);
fields read off its uses in `State::open_comments` / `handle_event`. -/
structure PendingComment where
  comment_link : String
  request_id : Nat
  deriving DecidableEq

/-- `src/pending_search.rs`. -/
structure PendingSearch where
  query : String
  request_id : Nat
  tab_index : Nat
  deriving DecidableEq

/-- `src/search_input.rs`. -/
structure SearchInput where
  buffer : String
  message_backup : String
  deriving DecidableEq

/-- `SearchInput::new`. -/
def SearchInput.new (message_backup : String) : SearchInput :=
  { buffer := "", message_backup := message_backup }

/-- `SearchInput::prompt`. -/
def SearchInput.prompt (input : SearchInput) : String :=
  "Search: " ++ input.buffer

/-- `src/transient_message.rs`, without the wall-clock expiry timestamp
(real time is outside the embedding; no claim involves expiry). -/
structure TransientMessage where
  current : String
  original : String
  deriving DecidableEq

/-- Modelled from the spec: the status-string constants live in a module
outside `src/`; their concrete values are irrelevant to every claim. -/
def LIST_STATUS : String := "list status"

/-- Modelled from the spec: status string, defined outside `src/`. -/
def COMMENTS_STATUS : String := "comments status"

/-- Modelled from the spec: status string, defined outside `src/`. -/
def LOADING_COMMENTS_STATUS : String := "Loading comments..."

/-- Modelled from the spec: status string, defined outside `src/`. -/
def LOADING_ENTRIES_STATUS : String := "Loading more entries..."

/-- Modelled from the spec: status string, defined outside `src/`. -/
def HELP_STATUS : String := "help status"

/-- `src/help_view.rs`: overlay visibility plus the message backup. -/
structure HelpView where
  message_backup : Option String
  visible : Bool
  deriving DecidableEq

/-- `HelpView::new`. -/
def HelpView.new : HelpView := { message_backup := none, visible := false }

/-- `HelpView::is_visible`. -/
def HelpView.is_visible (h : HelpView) : Bool := h.visible

/-- `HelpView::show` (mutates the help view and the status message). -/
def HelpView.showHelp (h : HelpView) (message : String) :
    HelpView × String :=
  if h.visible then (h, message)
  else ({ message_backup := some message, visible := true }, HELP_STATUS)

/-- `HelpView::hide`. -/
def HelpView.hideHelp (h : HelpView) (message : String) :
    HelpView × String :=
  if !h.visible then (h, message)
  else ({ message_backup := none, visible := false },
    h.message_backup.getD LIST_STATUS)

/-- `src/bookmark.rs`: the bookmark store.  The file path is dropped and
`persist` (the one `fs::write` call site) is modelled as recording the
written entry list in `fileWrites`, making the I/O the dispatcher performs
observable in the embedding. -/
structure Bookmarks where
  entries : List ListEntry
  ids : List String
  fileWrites : List (List ListEntry)
  deriving DecidableEq

/-- `Bookmarks::is_empty`. -/
def Bookmarks.is_empty (b : Bookmarks) : Bool := b.entries.isEmpty

/-- `Bookmarks::entries_vec`. -/
def Bookmarks.entries_vec (b : Bookmarks) : List ListEntry := b.entries

/-- `Bookmarks::persist`: records the write of the current entry list. -/
def Bookmarks.persist (b : Bookmarks) : Bookmarks :=
  { b with fileWrites := b.fileWrites ++ [b.entries] }

/-- `Bookmarks::remove`. -/
def Bookmarks.remove (b : Bookmarks) (id : String) : Bookmarks × Bool :=
  match b.entries.findIdx? (fun e => e.id = id) with
  | some pos =>
    (({ b with entries := b.entries.eraseIdx pos, ids := b.ids.erase id }).persist, true)
  | none => (b, false)

/-- `Bookmarks::toggle`: returns whether the entry is now present. -/
def Bookmarks.toggle (b : Bookmarks) (entry : ListEntry) :
    Bookmarks × Bool :=
  if b.ids.contains entry.id then ((b.remove entry.id).1, false)
  else
    (({ b with entries := entry :: b.entries, ids := entry.id :: b.ids }).persist, true)

/-- `CommentEntry::permalink`. -/
def CommentEntry.permalink (e : CommentEntry) : String :=
  "https://news.ycombinator.com/item?id=" ++ toString e.id

/-- The word-accumulating snippet loop of
`CommentEntry::to_bookmark_entry`. -/
def snippetFold : List String → String → Nat → String
  | [], acc, _ => acc
  | w :: ws, acc, char_count =>
    let (acc, char_count) :=
      if acc ≠ "" then (acc ++ " ", char_count + 1) else (acc, char_count)
    let acc := acc ++ w
    let char_count := char_count + w.length
    if char_count ≥ 120 then acc else snippetFold ws acc char_count

/-- `CommentEntry::to_bookmark_entry` (Rust `split_whitespace` is modelled
as splitting on whitespace and dropping empty pieces). -/
def CommentEntry.to_bookmark_entry (e : CommentEntry) : ListEntry :=
  let author := e.author.getD "unknown"
  let title := "Comment by " ++ author
  let snippet :=
    snippetFold ((e.body.split Char.isWhitespace).filter (· ≠ "")) "" 0
  let trimmed := snippet.trim
  let detail := if trimmed = "" then none else some (truncate trimmed 120)
  { detail := detail, id := toString e.id, title := title,
    url := some e.permalink }

mutual

/-- `CommentView::push_comment`: appends one fetched comment and its
subtree to the arena; returns the grown arena, the (possibly focused)
selection, and the new node's index. -/
def pushComment (entries : List CommentEntry) (comment : Comment)
    (parent : Option Nat) (depth : Nat) (focus : Option Nat)
    (selected : Option Nat) : List CommentEntry × Option Nat × Nat :=
  match comment with
  | .mk author children dead deleted id text =>
    let body :=
      if deleted then "[deleted]"
      else if dead then "[dead]"
      else text.getD ""
    let idx := entries.length
    let entries := entries ++
      [{ author := author, body := body, children := [], dead := dead,
         deleted := deleted, depth := depth, expanded := true, id := id,
         parent := parent }]
    let selected :=
      if selected = none ∧ focus = some id then some idx else selected
    let result := pushComments entries children (some idx) (depth + 1)
      focus selected
    (listModify result.1 idx (fun e => { e with children := result.2.2 }),
      result.2.1, idx)

/-- The loop over a comment's children inside `push_comment`. -/
def pushComments (entries : List CommentEntry) (comments : List Comment)
    (parent : Option Nat) (depth : Nat) (focus : Option Nat)
    (selected : Option Nat) : List CommentEntry × Option Nat × List Nat :=
  match comments with
  | [] => (entries, selected, [])
  | c :: rest =>
    let result := pushComment entries c parent depth focus selected
    let rest_result := pushComments result.1 rest parent depth focus
      result.2.1
    (rest_result.1, rest_result.2.1, result.2.2 :: rest_result.2.2)

end


/-- `CommentView::new`: top-down construction from a fetched thread. -/
def CommentView.new (thread : CommentThread) (fallback_link : String) :
    CommentView :=
  let result := pushComments [] thread.roots none 0 thread.focus none
  let entries := result.1
  let selected := result.2.1
  let selected :=
    if selected = none ∧ entries ≠ [] then some 0 else selected
  { entries := entries, link := thread.url.getD fallback_link,
    offset := 0, selected := selected }

/-- Modelled from the spec: `CommentView::selected_entry` (used by
`State::toggle_comment_bookmark`; absent from the `comment_view.rs`
snapshot): the arena entry of the current selection. -/
def CommentView.selected_entry (v : CommentView) : Option CommentEntry :=
  v.selected.bind fun i => v.entries.get? i

/-- Modelled from the spec: `CommentView::selected_comment_link` (used by
`State::open_comment_link`; absent from the `comment_view.rs` snapshot):
the permalink of the selected comment. -/
def CommentView.selected_comment_link (v : CommentView) : Option String :=
  v.selected_entry.map CommentEntry.permalink

/-- `src/mode.rs`: the active view mode. -/
inductive Mode where
  | Comments (view : CommentView)
  | List (view : ListView ListEntry)
  deriving DecidableEq

/-- `matches!(mode, Mode::List(_))`. -/
def Mode.isList : Mode → Bool
  | .List _ => true
  | .Comments _ => false

/-- `matches!(mode, Mode::Comments(_))`. -/
def Mode.isComments : Mode → Bool
  | .Comments _ => true
  | .List _ => false

/-- Rust `str::parse::<u64>` on an entry id (digit strings only, bounded
by `u64::MAX`). -/
def parseU64 (s : String) : Option Nat :=
  (s.toNat?).filter (· < 2 ^ 64)

/-- `src/state.rs`: the application state.  Fields mirror the Rust struct
(the `TransientMessage` expiry instant is dropped, see above). -/
structure State where
  active_tab : Nat
  bookmarks : Bookmarks
  bookmarks_tab_index : Option Nat
  help : HelpView
  list_height : Nat
  message : String
  mode : Mode
  next_request_id : Nat
  pending_comment : Option PendingComment
  pending_effects : List Effect
  pending_search : Option PendingSearch
  pending_selections : List (Option Nat)
  search_input : Option SearchInput
  search_tab_index : Option Nat
  tab_loading : List Bool
  tab_views : List (Option (ListView ListEntry))
  tabs : List Tab
  transient_message : Option TransientMessage
  deriving DecidableEq

/-- `State::list_view`. -/
def State.list_view (s : State) (index : Nat) :
    Option (ListView ListEntry) :=
  if index ≥ s.tabs.length then none
  else
    match s.mode with
    | Mode.List view =>
      if index = s.active_tab then some view
      else (s.tab_views.get? index).bind id
    | Mode.Comments _ => (s.tab_views.get? index).bind id

/-- `State::list_view_mut` used as an in-place update: applies `f` to the
list view `list_view` designates (the active mode's view, or the stored
slot). -/
def State.modify_list_view (s : State) (index : Nat)
    (f : ListView ListEntry → ListView ListEntry) : State :=
  if index ≥ s.tabs.length then s
  else
    match s.mode with
    | Mode.List view =>
      if index = s.active_tab then { s with mode := Mode.List (f view) }
      else { s with tab_views := listModify s.tab_views index (Option.map f) }
    | Mode.Comments _ =>
      { s with tab_views := listModify s.tab_views index (Option.map f) }

/-- `State::current_entry`. -/
def State.current_entry (s : State) : Option ListEntry :=
  (s.list_view s.active_tab).bind ListView.selected_item

/-- `State::set_transient_message`. -/
def State.set_transient_message (s : State) (message : String) : State :=
  let original :=
    match s.transient_message with
    | some transient => transient.original
    | none => s.message
  { s with
    transient_message := some { current := message, original := original }
    message := message }

/-- `State::clear_pending_effects`. -/
def State.clear_pending_effects (s : State) : State :=
  { s with pending_effects := [] }

/-- `State::restore_active_list_view`. -/
def State.restore_active_list_view (s : State) : State :=
  match s.tab_views.get? s.active_tab with
  | some slot =>
    match slot with
    | some view =>
      { s with
        tab_views := s.tab_views.set s.active_tab none
        mode := Mode.List view }
    | none =>
      if !s.mode.isList then
        { s with mode := Mode.List (ListView.default ListEntry) }
      else s
  | none =>
    if !s.mode.isList then
      { s with mode := Mode.List (ListView.default ListEntry) }
    else s

/-- `State::store_active_list_view` (`mem::take` leaves a default view in
the active mode). -/
def State.store_active_list_view (s : State) : State :=
  match s.mode with
  | Mode.List view =>
    if s.active_tab < s.tab_views.length then
      { s with
        tab_views := s.tab_views.set s.active_tab (some view)
        mode := Mode.List (ListView.default ListEntry) }
    else s
  | Mode.Comments _ => s

/-- `State::cancel_search`. -/
def State.cancel_search (s : State) : State :=
  match s.search_input with
  | some input =>
    { s with search_input := none, message := input.message_backup }
  | none => s

/-- `State::close_comments`. -/
def State.close_comments (s : State) : State :=
  let s := s.restore_active_list_view
  if !s.help.is_visible then { s with message := LIST_STATUS } else s

/-- `State::update_search_message`. -/
def State.update_search_message (s : State) : State :=
  match s.search_input with
  | some input => { s with message := truncate input.prompt 80 }
  | none => s

/-- `State::start_search`. -/
def State.start_search (s : State) : State :=
  if s.search_input.isSome then s
  else
    let backup := s.message
    let s := { s with search_input := some (SearchInput.new backup) }
    s.update_search_message

/-- `State::start_load_for_tab` (always returns `Ok` in the source). -/
def State.start_load_for_tab (s : State) (tab_index : Nat) : State :=
  match s.tabs.get? tab_index with
  | none => s
  | some tab =>
    if !tab.has_more then s
    else
      let offset := (s.list_view tab_index).elim 0 ListView.len
      let category := tab.category
      match s.tab_loading.get? tab_index with
      | none => s
      | some flag =>
        if flag then s
        else
          let s := { s with tab_loading := s.tab_loading.set tab_index true }
          let s :=
            if !s.help.is_visible then
              { s with message := LOADING_ENTRIES_STATUS }
            else s
          { s with pending_effects :=
              s.pending_effects ++ [Effect.FetchTabItems tab_index category offset] }

/-- `State::ensure_item`. -/
def State.ensure_item (s : State) (tab_index target_index : Nat) : State :=
  let current_len := (s.list_view tab_index).elim 0 ListView.len
  if target_index < current_len then s
  else
    match s.tabs.get? tab_index with
    | none => s
    | some tab =>
      if !tab.has_more then s
      else
        let s :=
          if tab_index < s.pending_selections.length then
            { s with pending_selections :=
                s.pending_selections.set tab_index (some target_index) }
          else s
        let is_loading := (s.tab_loading.get? tab_index).getD false
        if !is_loading then s.start_load_for_tab tab_index else s

/-- `State::select_index`. -/
def State.select_index (s : State) (target : Nat) : State :=
  if s.tabs.isEmpty then s
  else
    let tab_index := min s.active_tab (s.tabs.length - 1)
    let s := s.ensure_item tab_index target
    match s.list_view tab_index with
    | none => s
    | some list =>
      if target ≥ list.len then s
      else s.modify_list_view tab_index (fun l => l.set_selected target)

/-- `State::select_next`. -/
def State.select_next (s : State) : State :=
  if s.tabs.isEmpty then s
  else
    let tab_index := min s.active_tab (s.tabs.length - 1)
    let current := (s.list_view tab_index).elim 0 ListView.selected_raw
    s.select_index (current + 1)

/-- `State::select_previous`. -/
def State.select_previous (s : State) : State :=
  if s.tabs.isEmpty then s
  else
    let tab_index := min s.active_tab (s.tabs.length - 1)
    let current := (s.list_view tab_index).elim 0 ListView.selected_raw
    s.select_index (current - 1)

/-- `State::page_jump`. -/
def State.page_jump (s : State) : Nat :=
  max (s.list_height - 1) 1

/-- `State::page_down`. -/
def State.page_down (s : State) : State :=
  if s.tabs.isEmpty then s
  else
    let tab_index := min s.active_tab (s.tabs.length - 1)
    let current := (s.list_view tab_index).elim 0 ListView.selected_raw
    s.select_index (current + s.page_jump)

/-- `State::page_up`. -/
def State.page_up (s : State) : State :=
  if s.tabs.isEmpty then s
  else
    let tab_index := min s.active_tab (s.tabs.length - 1)
    let current := (s.list_view tab_index).elim 0 ListView.selected_raw
    s.select_index (current - s.page_jump)

/-- `State::switch_tab_left`. -/
def State.switch_tab_left (s : State) : State :=
  let tab_count := s.tabs.length
  if tab_count = 0 then s
  else
    let s := s.store_active_list_view
    let s := { s with active_tab := (s.active_tab + tab_count - 1) % tab_count }
    s.restore_active_list_view

/-- `State::switch_tab_right`. -/
def State.switch_tab_right (s : State) : State :=
  let tab_count := s.tabs.length
  if tab_count = 0 then s
  else
    let s := s.store_active_list_view
    let s := { s with active_tab := (s.active_tab + 1) % tab_count }
    s.restore_active_list_view

/-- `State::open_comments` (the id-parse failure path surfaces a
transient message; always returns `Ok` in the source). -/
def State.open_comments (s : State) : State :=
  match s.current_entry with
  | none => s
  | some entry =>
    let entry_id := entry.id
    match parseU64 entry_id with
    | none =>
      s.set_transient_message
        ("Could not load comments: invalid digit found in string")
    | some id =>
      let s :=
        if !s.help.is_visible then
          { s with message := LOADING_COMMENTS_STATUS }
        else s
      let comment_link := "https://news.ycombinator.com/item?id=" ++ entry_id
      let request_id := s.next_request_id
      let s := { s with next_request_id := (s.next_request_id + 1) % 2 ^ 64 }
      let s := { s with pending_comment := some { comment_link := comment_link, request_id := request_id } }
      { s with pending_effects :=
          s.pending_effects ++ [Effect.FetchComments id request_id] }

/-- `State::open_current_in_browser`. -/
def State.open_current_in_browser (s : State) : State :=
  match s.current_entry with
  | some entry =>
    { s with pending_effects :=
        s.pending_effects ++ [Effect.OpenUrl entry.resolved_url] }
  | none => s

/-- `State::open_comment_link`. -/
def State.open_comment_link (s : State) : State :=
  match s.mode with
  | Mode.Comments view =>
    let url := view.selected_comment_link.getD view.link
    { s with pending_effects := s.pending_effects ++ [Effect.OpenUrl url] }
  | Mode.List _ => s

/-- `State::ensure_bookmarks_tab`: lazily appends the bookmarks tab to all
four per-tab vectors. -/
def State.ensure_bookmarks_tab (s : State) : State × Nat :=
  match s.bookmarks_tab_index with
  | some index => (s, index)
  | none =>
    let entries := s.bookmarks.entries_vec
    let tab_index := s.tabs.length
    let category : Category :=
      { label := "bookmarks", kind := CategoryKind.Bookmarks }
    ({ s with
        tabs := s.tabs ++
          [{ category := category, has_more := false, label := category.label }]
        tab_views := s.tab_views ++ [some (ListView.new entries)]
        tab_loading := s.tab_loading ++ [false]
        pending_selections := s.pending_selections ++ [none]
        bookmarks_tab_index := some tab_index },
      tab_index)

/-- `State::ensure_search_tab`. -/
def State.ensure_search_tab (s : State) : State × Nat :=
  match s.search_tab_index with
  | some index => (s, index)
  | none =>
    let tab_index := s.tabs.length
    ({ s with
        tabs := s.tabs ++
          [{ category := { label := "search", kind := CategoryKind.Search }
             has_more := false
             label := "search" }]
        tab_views := s.tab_views ++ [some (ListView.default ListEntry)]
        tab_loading := s.tab_loading ++ [false]
        pending_selections := s.pending_selections ++ [none]
        search_tab_index := some tab_index },
      tab_index)

/-- `State::refresh_bookmarks_view`. -/
def State.refresh_bookmarks_view (s : State) (tab_index : Nat) : State :=
  let entries := s.bookmarks.entries_vec
  match s.list_view tab_index with
  | some view =>
    let selected := view.selected_index.getD 0
    let offset := view.offsetVal
    s.modify_list_view tab_index (fun _ =>
      let v := ListView.new entries
      if !v.is_empty then
        let last_index := v.len - 1
        (v.set_selected (min selected last_index)).set_offset
          (min offset last_index)
      else v)
  | none =>
    match s.tab_views.get? tab_index with
    | some slot =>
      let v := ListView.new entries
      let v :=
        match slot with
        | some existing =>
          let selected := existing.selected_index.getD 0
          let offset := existing.offsetVal
          if !v.is_empty then
            let last_index := v.len - 1
            (v.set_selected (min selected last_index)).set_offset
              (min offset last_index)
          else v
        | none => v
      { s with tab_views := s.tab_views.set tab_index (some v) }
    | none => s

/-- `State::remove_bookmarks_tab`, phase 1 (the `active_tab`/mode
adjustment after taking the bookmarks tab index). -/
def State.rbtAdjustActive (s : State) (index : Nat) : State :=
  if s.active_tab = index then
    { s with mode := Mode.List (ListView.default ListEntry) }
  else if s.active_tab > index then
    { s with active_tab := s.active_tab - 1 }
  else s

/-- `State::remove_bookmarks_tab`, phase 2 (shifting the stored search
tab index down past the removed index). -/
def State.rbtShiftSearch (s : State) (index : Nat) : State :=
  match s.search_tab_index with
  | some search_index =>
    if search_index = index then { s with search_tab_index := none }
    else if search_index > index then
      { s with search_tab_index := some (search_index - 1) }
    else s
  | none => s

/-- `State::remove_bookmarks_tab`, phase 3 (the four guarded
`Vec::remove` calls on the parallel per-tab vectors). -/
def State.rbtEraseVectors (s : State) (index : Nat) : State :=
  let s :=
    if index < s.tabs.length then
      { s with tabs := s.tabs.eraseIdx index }
    else s
  let s :=
    if index < s.tab_views.length then
      { s with tab_views := s.tab_views.eraseIdx index }
    else s
  let s :=
    if index < s.tab_loading.length then
      { s with tab_loading := s.tab_loading.eraseIdx index }
    else s
  if index < s.pending_selections.length then
    { s with pending_selections := s.pending_selections.eraseIdx index }
  else s

/-- `State::remove_bookmarks_tab`, phase 4 (re-clamping `active_tab` and
restoring the active list view when tabs remain). -/
def State.rbtFinish (s : State) : State :=
  if !s.tabs.isEmpty then
    ({ s with active_tab := min s.active_tab (s.tabs.length - 1) }).restore_active_list_view
  else s

/-- `State::remove_bookmarks_tab`: the Rust body, split into its four
consecutive phases (each helper is the literal translation of the
corresponding consecutive statements). -/
def State.remove_bookmarks_tab (s : State) : State :=
  match s.bookmarks_tab_index with
  | none => s
  | some index =>
    (((({ s with bookmarks_tab_index := none }).rbtAdjustActive
        index).rbtShiftSearch index).rbtEraseVectors index).rbtFinish

/-- `State::sync_bookmarks_tab`. -/
def State.sync_bookmarks_tab (s : State) : State :=
  if s.bookmarks.is_empty then s.remove_bookmarks_tab
  else
    let result := s.ensure_bookmarks_tab
    result.1.refresh_bookmarks_view result.2

/-- `State::toggle_list_bookmark` (bookmark persistence modelled as a
recorded write; always returns `Ok` in the embedding). -/
def State.toggle_list_bookmark (s : State) : State :=
  match s.current_entry with
  | none => s
  | some entry =>
    let result := s.bookmarks.toggle entry
    let added := result.2
    let s := { s with bookmarks := result.1 }
    let s := s.sync_bookmarks_tab
    if !s.help.is_visible then
      let title := truncate entry.title 40
      let message :=
        if added then "Bookmarked \"" ++ title ++ "\""
        else "Removed bookmark for \"" ++ title ++ "\""
      s.set_transient_message message
    else s

/-- `State::toggle_comment_bookmark`. -/
def State.toggle_comment_bookmark (s : State) : State :=
  match s.mode with
  | Mode.List _ => s
  | Mode.Comments view =>
    match view.selected_entry with
    | none => s
    | some selected =>
      let entry := selected.to_bookmark_entry
      let result := s.bookmarks.toggle entry
      let added := result.2
      let s := { s with bookmarks := result.1 }
      let s := s.sync_bookmarks_tab
      if !s.help.is_visible then
        let title := truncate entry.title 40
        let message :=
          if added then "Bookmarked \"" ++ title ++ "\""
          else "Removed bookmark for \"" ++ title ++ "\""
        s.set_transient_message message
      else s

/-- `State::toggle_bookmark`. -/
def State.toggle_bookmark (s : State) : State :=
  match s.mode with
  | Mode.List _ => s.toggle_list_bookmark
  | Mode.Comments _ => s.toggle_comment_bookmark

/-- `State::submit_search`, phase 1 (after the search tab exists: switch
to it, clear its view, clear `has_more`). -/
def State.ssPrepareTab (s : State) (tab_index : Nat) : State :=
  let s := s.store_active_list_view
  let s := { s with active_tab := tab_index }
  let s := s.restore_active_list_view
  let s :=
    match s.list_view tab_index with
    | some _ =>
      s.modify_list_view tab_index (fun _ => ListView.default ListEntry)
    | none =>
      if tab_index < s.tab_views.length then
        { s with tab_views :=
            s.tab_views.set tab_index (some (ListView.default ListEntry)) }
      else s
  { s with tabs := listModify s.tabs tab_index (fun tab => { tab with has_more := false }) }

/-- `State::submit_search`, phase 2 (allocate the request id, mark the
tab loading, store the pending token, set the message, emit the effect). -/
def State.ssMarkPending (s : State) (tab_index : Nat) (query : String) :
    State :=
  let request_id := s.next_request_id
  let s := { s with next_request_id := (s.next_request_id + 1) % 2 ^ 64 }
  let s := { s with tab_loading := s.tab_loading.set tab_index true }
  let s := { s with pending_search := some { query := query, request_id := request_id, tab_index := tab_index } }
  let s := { s with message := "Searching for \"" ++ truncate query 40 ++ "\"..." }
  { s with pending_effects := s.pending_effects ++ [Effect.FetchSearchResults query request_id] }

/-- `State::submit_search` (always returns `Ok` in the source); the body
is split into its two consecutive phases above. -/
def State.submit_search (s : State) : State :=
  match s.search_input with
  | none => s
  | some search =>
    let s := { s with search_input := none }
    let query := search.buffer.trim
    if query.isEmpty then { s with message := search.message_backup }
    else
      let s := if s.mode.isComments then s.restore_active_list_view else s
      let result := s.ensure_search_tab
      (result.1.ssPrepareTab result.2).ssMarkPending result.2 query

/-- The command match inside `State::dispatch_command`: the state after
handling one command, plus the exit flag (every arm returns `Ok` in the
embedding, since bookmark persistence is modelled as infallible). -/
def State.applyCommand (s : State) (command : Command) : State × Bool :=
  match command with
  | Command.Quit => (s, true)
  | Command.ShowHelp =>
    let result := s.help.showHelp s.message
    ({ s with help := result.1, message := result.2 }, false)
  | Command.HideHelp =>
    let result := s.help.hideHelp s.message
    ({ s with help := result.1, message := result.2 }, false)
  | Command.StartSearch => (s.start_search, false)
  | Command.CancelSearch => (s.cancel_search, false)
  | Command.SubmitSearch => (s.submit_search, false)
  | Command.SwitchTabLeft => (s.switch_tab_left, false)
  | Command.SwitchTabRight => (s.switch_tab_right, false)
  | Command.SelectNext => (s.select_next, false)
  | Command.SelectPrevious => (s.select_previous, false)
  | Command.PageDown => (s.page_down, false)
  | Command.PageUp => (s.page_up, false)
  | Command.SelectFirst => (s.select_index 0, false)
  | Command.OpenComments => (s.open_comments, false)
  | Command.OpenCurrentInBrowser => (s.open_current_in_browser, false)
  | Command.OpenCommentLink => (s.open_comment_link, false)
  | Command.CloseComments => (s.close_comments, false)
  | Command.ToggleBookmark => (s.toggle_bookmark, false)
  | Command.None => (s, false)

/-- `State::dispatch_command`: handles the command, then moves the
accumulated pending effects out of the state (`std::mem::take`). -/
def State.dispatch_command (s : State) (command : Command) :
    CommandDispatch × State :=
  let result := s.applyCommand command
  ({ effects := result.1.pending_effects, should_exit := result.2 },
    { result.1 with pending_effects := [] })

/-- `State::handle_event`.  `batch` stands for the constant
`INITIAL_BATCH_SIZE`, whose defining module is outside `src/` (the spec
calls it the requested batch size); every theorem below holds for any
value of it. -/
def State.handle_event (batch : Nat) (s : State) (event : Event) : State :=
  match event with
  | Event.TabItems tab_index result =>
    let s := { s with tab_loading := s.tab_loading.set tab_index false }
    let target := (s.pending_selections.get? tab_index).bind id
    let s := { s with pending_selections :=
        s.pending_selections.set tab_index none }
    match result with
    | Except.ok entries =>
      let s := { s with tabs := listModify s.tabs tab_index (fun tab => { tab with has_more := entries.length ≥ batch }) }
      let s :=
        match s.list_view tab_index with
        | some _ =>
          let s :=
            if !entries.isEmpty then
              s.modify_list_view tab_index (fun l => l.extend entries)
            else s
          match target with
          | some target =>
            match s.list_view tab_index with
            | some list =>
              if target < list.len then
                s.modify_list_view tab_index (fun l => l.set_selected target)
              else if !list.is_empty then
                s.modify_list_view tab_index
                  (fun l => l.set_selected (list.len - 1))
              else s
            | none => s
          | none => s
        | none => s
      if !s.help.is_visible then { s with message := LIST_STATUS } else s
    | Except.error error =>
      if !s.help.is_visible then
        s.set_transient_message ("Could not load more entries: " ++ error)
      else s
  | Event.SearchResults request_id result =>
    match s.pending_search with
    | none => s
    | some pending =>
      if pending.request_id ≠ request_id then s
      else
        let s := { s with pending_search := none }
        let s := { s with tab_loading :=
            s.tab_loading.set pending.tab_index false }
        match result with
        | Except.ok payload =>
          let entries := payload.1
          let has_more := payload.2
          let s := { s with tabs := listModify s.tabs pending.tab_index (fun tab => { tab with has_more := has_more }) }
          let view := ListView.new entries
          let result_count := view.len
          let view :=
            if !view.is_empty then view.set_selected 0 else view
          let s :=
            match s.list_view pending.tab_index with
            | some _ =>
              s.modify_list_view pending.tab_index (fun _ => view)
            | none =>
              if pending.tab_index < s.tab_views.length then
                { s with tab_views :=
                    s.tab_views.set pending.tab_index (some view) }
              else s
          if !s.help.is_visible then
            let truncated := truncate pending.query 40
            let message :=
              if result_count = 0 then
                "No results for \"" ++ truncated ++ "\""
              else if result_count = 1 then
                "Found 1 result for \"" ++ truncated ++ "\""
              else
                "Found " ++ toString result_count ++ " results for \""
                  ++ truncated ++ "\""
            { s with message := message }
          else s
        | Except.error error =>
          if !s.help.is_visible then
            s.set_transient_message ("Could not search: " ++ error)
          else s
  | Event.Comments request_id result =>
    match s.pending_comment with
    | none => s
    | some pending =>
      if pending.request_id ≠ request_id then s
      else
        let s := { s with pending_comment := none }
        match result with
        | Except.ok thread =>
          let view := CommentView.new thread pending.comment_link
          let s := s.store_active_list_view
          let s := { s with mode := Mode.Comments view }
          if !s.help.is_visible then
            { s with message := COMMENTS_STATUS }
          else s
        | Except.error error =>
          if !s.help.is_visible then
            s.set_transient_message ("Could not load comments: " ++ error)
          else s

/-- `State::new`. -/
def State.new (tabs : List (Tab × ListView ListEntry))
    (bookmarks : Bookmarks) : State :=
  let tab_meta := tabs.map Prod.fst
  let tab_views : List (Option (ListView ListEntry)) :=
    tabs.map (fun t => some t.2)
  let initial_view :=
    ((tab_views.get? 0).bind id).getD (ListView.default ListEntry)
  let tab_views := tab_views.set 0 none
  let tab_count := tab_meta.length
  let state : State :=
    { active_tab := 0
      bookmarks := bookmarks
      bookmarks_tab_index := none
      help := HelpView.new
      list_height := 0
      message := LIST_STATUS
      mode := Mode.List initial_view
      next_request_id := 0
      pending_comment := none
      pending_effects := []
      pending_search := none
      pending_selections := List.replicate tab_count none
      search_input := none
      search_tab_index := none
      tab_loading := List.replicate tab_count false
      tab_views := tab_views
      tabs := tab_meta
      transient_message := none }
  if !state.bookmarks.is_empty then
    let result := state.ensure_bookmarks_tab
    result.1.refresh_bookmarks_view result.2
  else state

/-- State for the C1 witness: one tab, both pending tokens carrying
request id `2`. -/
def sampleStateStale : State :=
  { active_tab := 0
    bookmarks := { entries := [], ids := [], fileWrites := [] }
    bookmarks_tab_index := none
    help := HelpView.new
    list_height := 0
    message := "m"
    mode := Mode.List (ListView.new
      [{ detail := none, id := "42", title := "Example", url := none }])
    next_request_id := 3
    pending_comment := some { comment_link := "link", request_id := 2 }
    pending_effects := []
    pending_search := some { query := "q", request_id := 2, tab_index := 0 }
    pending_selections := [none]
    search_input := none
    search_tab_index := none
    tab_loading := [true]
    tab_views := [none]
    tabs := [{ category := { label := "top", kind := CategoryKind.Stories "topstories" }, has_more := true, label := "top" }]
    transient_message := none }

/-- State for the C5 counterexample: one tab, a pending selection target
stored for it, the tab marked loading. -/
def sampleStateError : State :=
  { active_tab := 0
    bookmarks := { entries := [], ids := [], fileWrites := [] }
    bookmarks_tab_index := none
    help := HelpView.new
    list_height := 0
    message := "m"
    mode := Mode.List (ListView.new
      [{ detail := none, id := "42", title := "Example", url := none }])
    next_request_id := 0
    pending_comment := none
    pending_effects := []
    pending_search := none
    pending_selections := [some 7]
    search_input := none
    search_tab_index := none
    tab_loading := [true]
    tab_views := [none]
    tabs := [{ category := { label := "top", kind := CategoryKind.Stories "topstories" }, has_more := true, label := "top" }]
    transient_message := none }

/-- State for the C4 witness: one exhausted tab (`has_more = false`). -/
def sampleStatePagination : State :=
  { active_tab := 0
    bookmarks := { entries := [], ids := [], fileWrites := [] }
    bookmarks_tab_index := none
    help := HelpView.new
    list_height := 0
    message := "m"
    mode := Mode.List (ListView.new
      [{ detail := none, id := "42", title := "Example", url := none }])
    next_request_id := 0
    pending_comment := none
    pending_effects := []
    pending_search := none
    pending_selections := [none]
    search_input := none
    search_tab_index := none
    tab_loading := [false]
    tab_views := [none]
    tabs := [{ category := { label := "top", kind := CategoryKind.Stories "topstories" }, has_more := false, label := "top" }]
    transient_message := none }

/-- State for C6: one tab with a selected entry, no bookmarks yet. -/
def sampleStateBookmark : State :=
  { active_tab := 0
    bookmarks := { entries := [], ids := [], fileWrites := [] }
    bookmarks_tab_index := none
    help := HelpView.new
    list_height := 0
    message := "m"
    mode := Mode.List (ListView.new
      [{ detail := none, id := "42", title := "Example", url := none }])
    next_request_id := 0
    pending_comment := none
    pending_effects := []
    pending_search := none
    pending_selections := [none]
    search_input := none
    search_tab_index := none
    tab_loading := [false]
    tab_views := [none]
    tabs := [{ category := { label := "top", kind := CategoryKind.Stories "topstories" }, has_more := false, label := "top" }]
    transient_message := none }

/-! ### Per-tab bookkeeping invariant (C10) -/

/-- The parallel per-tab bookkeeping invariant: the four per-tab vectors
have equal length, and the lazily created bookmarks/search tab indices,
when present, are in range. -/
def StateWF (s : State) : Prop :=
  s.tab_views.length = s.tabs.length
    ∧ s.tab_loading.length = s.tabs.length
    ∧ s.pending_selections.length = s.tabs.length
    ∧ (∀ i, s.bookmarks_tab_index = some i → i < s.tabs.length)
    ∧ (∀ i, s.search_tab_index = some i → i < s.tabs.length)

/-- Operations that leave the tab skeleton (vector lengths and the two
lazy tab indices) unchanged. -/
def SkeletonEq (s' s : State) : Prop :=
  s'.tabs.length = s.tabs.length
    ∧ s'.tab_views.length = s.tab_views.length
    ∧ s'.tab_loading.length = s.tab_loading.length
    ∧ s'.pending_selections.length = s.pending_selections.length
    ∧ s'.bookmarks_tab_index = s.bookmarks_tab_index
    ∧ s'.search_tab_index = s.search_tab_index

/-- Boolean checker for `StateWF`, so witnesses can evaluate it. -/
def stateWFB (s : State) : Bool :=
  (s.tab_views.length == s.tabs.length)
    && (s.tab_loading.length == s.tabs.length)
    && (s.pending_selections.length == s.tabs.length)
    && (match s.bookmarks_tab_index with
        | some i => decide (i < s.tabs.length)
        | none => true)
    && (match s.search_tab_index with
        | some i => decide (i < s.tabs.length)
        | none => true)

def sampleStateC10 : State :=
  { active_tab := 2
    bookmarks := { entries := [], ids := [], fileWrites := [] }
    bookmarks_tab_index := some 1
    help := HelpView.new
    list_height := 0
    message := "m"
    mode := Mode.List (ListView.new
      [{ detail := none, id := "42", title := "Example", url := none }])
    next_request_id := 1
    pending_comment := none
    pending_effects := []
    pending_search := none
    pending_selections := [none, none, none]
    search_input := none
    search_tab_index := some 2
    tab_loading := [false, false, false]
    tab_views := [none, none, none]
    tabs :=
      [{ category := { label := "top", kind := CategoryKind.Stories "topstories" }, has_more := true, label := "top" },
       { category := { label := "bookmarks", kind := CategoryKind.Bookmarks }, has_more := false, label := "bookmarks" },
       { category := { label := "search", kind := CategoryKind.Search }, has_more := false, label := "search" }]
    transient_message := none }

/-- C3: Selection clamp.  For any `ListView` with `N` items and any `k`,
after `set_selected k` the value of `selected_index` is `some (min k (N-1))`
when `N > 0` and `none` when `N = 0`; and on every view the `offset` getter
is bounded by `N - 1` when non-empty and is `0` when empty. -/
theorem listView_selection_clamp (v : ListView α) (k : Nat) :
    ((v.items.length ≠ 0 →
        (v.set_selected k).selected_index = some (min k (v.items.length - 1)))
      ∧ (v.items.length = 0 → (v.set_selected k).selected_index = none))
    ∧ (v.items.length ≠ 0 → v.offsetVal ≤ v.items.length - 1)
    ∧ (v.items.length = 0 → v.offsetVal = 0) := by
  constructor
  · constructor
    · intro hne
      have hempty : v.items.isEmpty = false := by
        cases h : v.items with
        | nil => exact absurd (by simp [h]) hne
        | cons a l => simp [h]
      simp [ListView.set_selected, ListView.selected_index, hempty,
        Nat.min_comm]
    · intro hzero
      have hempty : v.items.isEmpty = true := by
        cases h : v.items with
        | nil => rfl
        | cons a l => simp [h] at hzero
      simp [ListView.set_selected, ListView.selected_index, hempty]
  · constructor
    · intro hne
      have hempty : v.items.isEmpty = false := by
        cases h : v.items with
        | nil => exact absurd (by simp [h]) hne
        | cons a l => simp [h]
      simp only [ListView.offsetVal, ListView.selected_index, hempty,
        Bool.false_eq_true, if_false]
      have : min v.selected (v.items.length - 1) ≤ v.items.length - 1 :=
        Nat.min_le_right _ _
      simp only [Option.getD_some]
      exact le_trans (Nat.min_le_right _ _) this
    · intro hzero
      have hempty : v.items.isEmpty = true := by
        cases h : v.items with
        | nil => rfl
        | cons a l => simp [h] at hzero
      simp [ListView.offsetVal, hempty]

/-- C3 witness: the clamp on a concrete 3-item view and on the empty view. -/
theorem listView_selection_clamp_witness :
    ((ListView.new [10, 20, 30]).set_selected 10).selected_index = some 2
      ∧ (ListView.default Nat).selected_index = none := by
  refine ⟨?_, ?_⟩
  · have h := (listView_selection_clamp (ListView.new [10, 20, 30]) 10).1.1
      (by decide)
    simpa using h
  · have h := (listView_selection_clamp (ListView.default Nat) 0).1.2 rfl
    simpa using h

/-- C7 counterexample: the claim quantifies over every `ListView` value and
asserts in particular that a stored selection index greater than the old
length never lets `extend` change `selected_index`.  On the raw structure
this fails: with one item and stored selection `5`, `selected_index` is
`some 0` before an `extend` by three items and `some 3` after it.  (Such a
view is not constructible through the module's API, which always clamps the
stored selection.) -/
theorem listView_extend_counterexample :
    let v : ListView Nat := { items := [0], offset := 0, selected := 5 }
    ¬ ((v.extend [1, 2, 3]).selected_index = v.selected_index) := by
  decide

/-- C7 (amended): `extend` never changes `selected_index` provided the view
was non-empty and its stored selection was within bounds (`selected ≤
len - 1`) — which holds for every view built through the module's API,
since `new` and `default` store `0` and `set_selected` clamps. -/
theorem listView_extend_preserves_selection (v : ListView α) (more : List α)
    (hne : v.items ≠ []) (hsel : v.selected ≤ v.items.length - 1) :
    (v.extend more).selected_index = v.selected_index := by
  have hlen : v.items.length ≠ 0 := by
    intro h
    exact hne (List.length_eq_zero.mp h)
  have hempty : v.items.isEmpty = false := by
    cases h : v.items with
    | nil => exact absurd h hne
    | cons a l => simp [h]
  have hempty' : (v.items ++ more).isEmpty = false := by
    cases h : v.items with
    | nil => exact absurd h hne
    | cons a l => simp [h]
  simp only [ListView.extend, ListView.selected_index, hempty, hempty',
    Bool.false_eq_true, if_false, List.length_append]
  congr 1
  have h1 : min v.selected (v.items.length - 1) = v.selected :=
    Nat.min_eq_left hsel
  have h2 : min v.selected (v.items.length + more.length - 1) = v.selected :=
    Nat.min_eq_left (le_trans hsel (by omega))
  rw [h1, h2]

/-- C7 witness: extending a two-item view with selection `1` keeps
`selected_index = some 1`. -/
theorem listView_extend_preserves_selection_witness :
    ((ListView.new ["a", "b"]).set_selected 1).items ≠ []
      ∧ (((ListView.new ["a", "b"]).set_selected 1).extend
          ["c", "d"]).selected_index
        = ((ListView.new ["a", "b"]).set_selected 1).selected_index := by
  refine ⟨by decide, ?_⟩
  exact listView_extend_preserves_selection
    ((ListView.new ["a", "b"]).set_selected 1) ["c", "d"] (by decide)
    (by decide)

theorem listModify_get? (l : List α) (n : Nat) (g : α → α) (i : Nat) :
    (listModify l n g).get? i = if i = n then (l.get? n).map g else l.get? i := by
  unfold listModify
  cases h : l.get? n with
  | none =>
    by_cases hin : i = n
    · subst hin
      rw [if_pos rfl, h]
      rfl
    · rw [if_neg hin]
  | some a =>
    have hlen : n < l.length := List.get?_eq_some.mp h |>.choose
    by_cases hin : i = n
    · subst hin
      rw [List.get?_set_eq_of_lt _ hlen, h, if_pos rfl, Option.map_some']
    · rw [List.get?_set_ne _ _ (fun hne => hin hne.symm), if_neg hin]

theorem listModify_length (l : List α) (n : Nat) (g : α → α) :
    (listModify l n g).length = l.length := by
  unfold listModify
  cases h : l.get? n with
  | none => rfl
  | some a => exact l.length_set n (g a)

theorem parentsBelow_of_b (entries : List CommentEntry)
    (h : parentsBelowB entries = true) : ParentsBelow entries := by
  intro i e he p hp
  have hi : i < entries.length := (List.get?_eq_some.mp he).choose
  have h2 := (List.all_eq_true.mp h) i (List.mem_range.mpr hi)
  simp only [he, hp] at h2
  exact of_decide_eq_true h2

theorem parentOf_lt {entries : List CommentEntry}
    (hwf : ParentsBelow entries) {i p : Nat}
    (h : parentOf entries i = some p) : p < i := by
  unfold parentOf at h
  cases he : entries.get? i with
  | none => rw [he] at h; exact absurd h (by simp)
  | some e =>
    rw [he] at h
    exact hwf i e he p h

theorem parentOf_zero {entries : List CommentEntry}
    (hwf : ParentsBelow entries) : parentOf entries 0 = none := by
  cases h : parentOf entries 0 with
  | none => rfl
  | some p => exact absurd (parentOf_lt hwf h) (Nat.not_lt_zero p)

/-- The `is_visible` loop result is the conjunction of `expanded` over the
ancestor chain it walks (with the same fuel). -/
theorem visibleStep_eq_all (entries : List CommentEntry) :
    ∀ (f i : Nat),
      visibleStep entries f i
        = (ancestorChain entries f i).all (expandedAt entries) := by
  intro f
  induction f with
  | zero => intro i; rfl
  | succ f ih =>
    intro i
    unfold visibleStep ancestorChain
    cases hp : parentOf entries i with
    | none => rfl
    | some p =>
      simp only [List.all_cons, ih p]
      by_cases he : expandedAt entries p
      · simp [he]
      · simp [he]

theorem ancestorChain_fuel {entries : List CommentEntry}
    (hwf : ParentsBelow entries) :
    ∀ i f g, i ≤ f → i ≤ g →
      ancestorChain entries f i = ancestorChain entries g i := by
  intro i
  induction i using Nat.strong_induction_on with
  | _ i ih =>
    intro f g hf hg
    cases hp : parentOf entries i with
    | none =>
      cases f with
      | zero => cases g with
        | zero => rfl
        | succ g => simp [ancestorChain, hp]
      | succ f => cases g with
        | zero => simp [ancestorChain, hp]
        | succ g => simp [ancestorChain, hp]
    | some p =>
      have hpi : p < i := parentOf_lt hwf hp
      cases f with
      | zero => omega
      | succ f => cases g with
        | zero => omega
        | succ g =>
          simp only [ancestorChain, hp]
          have : ancestorChain entries f p = ancestorChain entries g p :=
            ih p hpi f g (by omega) (by omega)
          rw [this]

theorem ancestorChain_lt {entries : List CommentEntry}
    (hwf : ParentsBelow entries) :
    ∀ f i a, a ∈ ancestorChain entries f i → a < i := by
  intro f
  induction f with
  | zero => intro i a ha; simp [ancestorChain] at ha
  | succ f ih =>
    intro i a ha
    unfold ancestorChain at ha
    cases hp : parentOf entries i with
    | none => rw [hp] at ha; simp at ha
    | some p =>
      rw [hp] at ha
      have hpi : p < i := parentOf_lt hwf hp
      rcases List.mem_cons.mp ha with h | h
      · omega
      · exact lt_trans (ih p a h) hpi

theorem findVisibleUp_parent (entries : List CommentEntry) :
    ∀ f i,
      findVisibleUp entries f (parentOf entries i)
        = (ancestorChain entries f i).find?
            (fun a => visibleStep entries (a + 1) a) := by
  intro f
  induction f with
  | zero =>
    intro i
    cases hp : parentOf entries i with
    | none => rfl
    | some p => rfl
  | succ f ih =>
    intro i
    cases hp : parentOf entries i with
    | none => simp [findVisibleUp, ancestorChain, hp]
    | some p =>
      cases hv : visibleStep entries (p + 1) p with
      | true => simp [findVisibleUp, ancestorChain, hp, hv]
      | false => simp [findVisibleUp, ancestorChain, hp, hv, ih p]

theorem parentOf_listModify_expanded (entries : List CommentEntry)
    (n : Nat) (b : Bool) (i : Nat) :
    parentOf (listModify entries n (fun e => { e with expanded := b })) i
      = parentOf entries i := by
  unfold parentOf
  rw [listModify_get?]
  by_cases hin : i = n
  · subst hin
    cases h : entries.get? i with
    | none => simp
    | some e => simp
  · rw [if_neg hin]

theorem ancestorChain_listModify_expanded (entries : List CommentEntry)
    (n : Nat) (b : Bool) :
    ∀ f i,
      ancestorChain (listModify entries n (fun e => { e with expanded := b })) f i
        = ancestorChain entries f i := by
  intro f
  induction f with
  | zero => intro i; rfl
  | succ f ih =>
    intro i
    cases hp : parentOf entries i with
    | none => simp [ancestorChain, parentOf_listModify_expanded, hp]
    | some p => simp [ancestorChain, parentOf_listModify_expanded, hp, ih p]

theorem expandedAt_listModify_expanded_self (entries : List CommentEntry)
    (n : Nat) (b : Bool) (hn : n < entries.length) :
    expandedAt (listModify entries n (fun e => { e with expanded := b })) n
      = b := by
  unfold expandedAt
  rw [listModify_get?, if_pos rfl]
  cases h : entries.get? n with
  | none => exact absurd (List.get?_eq_none.mp h) (by omega)
  | some e => rfl

/-- C2: Visibility invariant of the comment tree.  For every in-arena
index `x` of a well-formed arena: `is_visible x` holds iff every ancestor
of `x` has `expanded = true`; clearing `expanded` on node `n` makes every
descendant `d` of `n` invisible; and the visible order is exactly the
ascending arena (pre-order) index order restricted to visible nodes. -/
theorem commentView_visibility_invariant (v : CommentView) (x n d : Nat)
    (hwf : ParentsBelow v.entries) (hx : x < v.entries.length)
    (hn : n < v.entries.length) :
    (v.is_visible x = true ↔
        ∀ a ∈ v.ancestors x, ∀ e, v.entries.get? a = some e →
          e.expanded = true)
      ∧ (n ∈ v.ancestors d → (v.collapseAt n).is_visible d = false)
      ∧ v.visible_indexes
          = (List.range v.entries.length).filter v.is_visible
      ∧ List.Pairwise (· < ·) v.visible_indexes := by
  refine ⟨?_, ?_, rfl, ?_⟩
  · rw [CommentView.is_visible, visibleStep_eq_all, List.all_eq_true]
    constructor
    · intro h a ha e he
      have := h a ha
      unfold expandedAt at this
      rw [he] at this
      exact this
    · intro h a ha
      have halt : a < x := ancestorChain_lt hwf (x + 1) x a ha
      have halen : a < v.entries.length := lt_trans halt hx
      unfold expandedAt
      cases he : v.entries.get? a with
      | none => exact absurd (List.get?_eq_none.mp he) (by omega)
      | some e => exact h a ha e he
  · intro hmem
    rw [CommentView.is_visible, visibleStep_eq_all]
    have hchain :
        ancestorChain (v.collapseAt n).entries (d + 1) d
          = ancestorChain v.entries (d + 1) d :=
      ancestorChain_listModify_expanded v.entries n false (d + 1) d
    rw [List.all_eq_false]
    refine ⟨n, ?_, ?_⟩
    · rw [hchain]
      exact hmem
    · simp only [CommentView.collapseAt]
      rw [expandedAt_listModify_expanded_self v.entries n false hn]
      simp
  · exact (List.pairwise_lt_range v.entries.length).filter v.is_visible

theorem all_congr_of_mem {l : List α} {p q : α → Bool}
    (h : ∀ x ∈ l, p x = q x) : l.all p = l.all q := by
  induction l with
  | nil => rfl
  | cons a l ih =>
    simp only [List.all_cons, h a (List.mem_cons_self a l),
      ih fun x hx => h x (List.mem_cons_of_mem a hx)]

theorem expandedAt_listModify_expanded_ne (entries : List CommentEntry)
    (n : Nat) (b : Bool) (a : Nat) (hne : a ≠ n) :
    expandedAt (listModify entries n (fun e => { e with expanded := b })) a
      = expandedAt entries a := by
  unfold expandedAt
  rw [listModify_get?, if_neg hne]

theorem visibleStep_listModify_expanded_notmem (entries : List CommentEntry)
    (n : Nat) (b : Bool) (f i : Nat)
    (hnot : n ∉ ancestorChain entries f i) :
    visibleStep (listModify entries n (fun e => { e with expanded := b })) f i
      = visibleStep entries f i := by
  rw [visibleStep_eq_all, visibleStep_eq_all,
    ancestorChain_listModify_expanded]
  exact all_congr_of_mem fun a ha =>
    expandedAt_listModify_expanded_ne entries n b a
      (fun h => hnot (h ▸ ha))

/-- A root of a well-formed arena (index `0`) is always visible. -/
theorem visibleStep_zero {entries : List CommentEntry}
    (hwf : ParentsBelow entries) : visibleStep entries 1 0 = true := by
  unfold visibleStep
  rw [parentOf_zero hwf]

theorem visible_indexes_ne_nil (v : CommentView)
    (hwf : ParentsBelow v.entries) (hne : v.entries ≠ []) :
    v.visible_indexes ≠ [] := by
  have h0 : (0 : Nat) ∈ v.visible_indexes := by
    apply List.mem_filter.mpr
    refine ⟨List.mem_range.mpr ?_, ?_⟩
    · exact List.length_pos.mpr hne
    · exact visibleStep_zero hwf
  exact List.ne_nil_of_mem h0

theorem mem_visible_indexes {v : CommentView} {j : Nat}
    (h : j ∈ v.visible_indexes) :
    j < v.entries.length ∧ v.is_visible j = true := by
  have := List.mem_filter.mp h
  exact ⟨List.mem_range.mp this.1, this.2⟩

/-- An invisible node of a well-formed arena always has a visible
ancestor (at the latest, the root of its chain). -/
theorem exists_visible_ancestor {entries : List CommentEntry}
    (hwf : ParentsBelow entries) :
    ∀ i, visibleStep entries (i + 1) i = false →
      ∃ a ∈ ancestorChain entries (i + 1) i,
        visibleStep entries (a + 1) a = true := by
  intro i
  induction i using Nat.strong_induction_on with
  | _ i ih =>
    intro hinv
    cases hp : parentOf entries i with
    | none =>
      have htrue : visibleStep entries (i + 1) i = true := by
        unfold visibleStep
        rw [hp]
      rw [htrue] at hinv
      exact absurd hinv (by simp)
    | some p =>
      have hpi : p < i := parentOf_lt hwf hp
      have hchain :
          ancestorChain entries (i + 1) i
            = p :: ancestorChain entries i p := by
        simp [ancestorChain, hp]
      have htail : ancestorChain entries i p
          = ancestorChain entries (p + 1) p :=
        ancestorChain_fuel hwf p i (p + 1) (by omega) (by omega)
      by_cases hv : visibleStep entries (p + 1) p = true
      · exact ⟨p, by rw [hchain]; exact List.mem_cons_self p _, hv⟩
      · obtain ⟨a, ha, hva⟩ := ih p hpi (Bool.eq_false_iff.mpr hv)
        refine ⟨a, ?_, hva⟩
        rw [hchain, htail]
        exact List.mem_cons_of_mem p ha

/-- Unfolding of `ensure_selection_visible` when a selection is stored. -/
theorem ensure_some (v : CommentView) (i : Nat) (hi : v.selected = some i) :
    v.ensure_selection_visible
      = match findVisibleUp v.entries (i + 1) (some i) with
        | some j => { v with selected := some j }
        | none => { v with selected := v.visible_indexes.head? } := by
  unfold CommentView.ensure_selection_visible
  rw [hi]

/-- Unfolding of `findVisibleUp` at a present node. -/
theorem findVisibleUp_some (entries : List CommentEntry) (f i : Nat) :
    findVisibleUp entries (f + 1) (some i)
      = if visibleStep entries (i + 1) i then some i
        else findVisibleUp entries f (parentOf entries i) := rfl

/-- `ensure_selection_visible` is the identity when the current selection
is already a visible node. -/
theorem ensure_of_visible (v : CommentView) (i : Nat)
    (hi : v.selected = some i) (hvis : v.is_visible i = true) :
    v.ensure_selection_visible = v := by
  rw [ensure_some v i hi]
  have hfind : findVisibleUp v.entries (i + 1) (some i) = some i := by
    rw [findVisibleUp_some]
    rw [CommentView.is_visible] at hvis
    rw [hvis]
    simp
  rw [hfind]
  show { v with selected := some i } = v
  rw [← hi]

/-- C8: Selection repair.  On a non-empty well-formed arena whose stored
selection (if any) is in range, `ensure_selection_visible` always leaves
the selection on a visible in-arena node; and when the prior selection was
an invisible node, the new selection is its nearest visible ancestor (the
first visible node met walking parent links upward). -/
theorem commentView_selection_repair (v : CommentView)
    (hwf : ParentsBelow v.entries) (hne : v.entries ≠ [])
    (hsel : ∀ i, v.selected = some i → i < v.entries.length) :
    (∃ j, v.ensure_selection_visible.selected = some j
        ∧ j < v.entries.length ∧ v.is_visible j = true)
      ∧ (∀ i, v.selected = some i → v.is_visible i = false →
          v.ensure_selection_visible.selected
            = (v.ancestors i).find? fun a => v.is_visible a) := by
  have hvne := visible_indexes_ne_nil v hwf hne
  have hhead : ∃ j, v.visible_indexes.head? = some j
      ∧ j < v.entries.length ∧ v.is_visible j = true := by
    refine ⟨v.visible_indexes.head hvne, List.head?_eq_head hvne, ?_⟩
    exact mem_visible_indexes (List.head_mem hvne)
  cases hs : v.selected with
  | none =>
    constructor
    · obtain ⟨j, hj, hjl, hjv⟩ := hhead
      refine ⟨j, ?_, hjl, hjv⟩
      unfold CommentView.ensure_selection_visible
      rw [hs]
      exact hj
    · intro i hi
      exact Option.noConfusion hi
  | some i =>
    have hilen := hsel i hs
    rw [ensure_some v i hs]
    by_cases hv : v.is_visible i = true
    · have hfind : findVisibleUp v.entries (i + 1) (some i) = some i := by
        rw [findVisibleUp_some]
        rw [CommentView.is_visible] at hv
        rw [hv]
        simp
      rw [hfind]
      constructor
      · exact ⟨i, rfl, hilen, hv⟩
      · intro i' hi' hinv
        have hii : i' = i := (Option.some.inj hi').symm
        subst hii
        rw [hv] at hinv
        exact Bool.noConfusion hinv
    · have hv' : visibleStep v.entries (i + 1) i = false := by
        cases h : v.is_visible i with
        | true => exact absurd h hv
        | false => exact h
      have hfind : findVisibleUp v.entries (i + 1) (some i)
          = (v.ancestors i).find? fun a => v.is_visible a := by
        rw [findVisibleUp_some, hv', if_neg (by simp)]
        rw [findVisibleUp_parent v.entries i i]
        rw [ancestorChain_fuel hwf i i (i + 1) (le_refl i) (by omega)]
        rfl
      obtain ⟨a, hamem, hav⟩ := exists_visible_ancestor hwf i hv'
      have hfsome : (((v.ancestors i).find? fun a => v.is_visible a)).isSome := by
        apply List.find?_isSome.mpr
        exact ⟨a, hamem, hav⟩
      obtain ⟨j, hj⟩ := Option.isSome_iff_exists.mp hfsome
      rw [hfind, hj]
      constructor
      · refine ⟨j, rfl, ?_, List.find?_some hj⟩
        have hmem := List.mem_of_find?_eq_some hj
        have : j < i := ancestorChain_lt hwf (i + 1) i j hmem
        omega
      · intro i' hi' hinv
        have hii : i' = i := (Option.some.inj hi').symm
        subst hii
        exact hj.symm

/-- C8 witness: repairing the selection of `sampleTreeRepair` lands on a
visible node, namely the collapsed root (the nearest visible ancestor). -/
theorem commentView_selection_repair_witness :
    (∃ j, sampleTreeRepair.ensure_selection_visible.selected = some j
        ∧ j < sampleTreeRepair.entries.length
        ∧ sampleTreeRepair.is_visible j = true)
      ∧ (∀ i, sampleTreeRepair.selected = some i →
          sampleTreeRepair.is_visible i = false →
          sampleTreeRepair.ensure_selection_visible.selected
            = (sampleTreeRepair.ancestors i).find?
                fun a => sampleTreeRepair.is_visible a) :=
  commentView_selection_repair sampleTreeRepair
    (parentsBelow_of_b _ (by decide)) (by decide)
    (fun i hi => by cases hi; decide)

/-- C2 witness: the visibility invariant instantiated on a two-node
arena (child node `1`, collapsing node `0`). -/
theorem commentView_visibility_invariant_witness :
    (sampleTreeVisibility.is_visible 1 = true ↔
        ∀ a ∈ sampleTreeVisibility.ancestors 1, ∀ e,
          sampleTreeVisibility.entries.get? a = some e → e.expanded = true)
      ∧ (0 ∈ sampleTreeVisibility.ancestors 1 →
          (sampleTreeVisibility.collapseAt 0).is_visible 1 = false)
      ∧ sampleTreeVisibility.visible_indexes
          = (List.range sampleTreeVisibility.entries.length).filter
              sampleTreeVisibility.is_visible
      ∧ List.Pairwise (· < ·) sampleTreeVisibility.visible_indexes :=
  commentView_visibility_invariant sampleTreeVisibility 1 0 1
    (parentsBelow_of_b _ (by decide)) (by decide) (by decide)

/-- Unfolding of `collapse_selected` at a stored selection whose arena
entry is known. -/
theorem collapse_selected_some (v : CommentView) (s : Nat) (e : CommentEntry)
    (hs : v.selected = some s) (he : v.entries.get? s = some e) :
    v.collapse_selected
      = (if e.expanded ∧ e.children ≠ [] then
          { v with entries := listModify v.entries s (fun x => { x with expanded := false }) }
        else
          match e.parent with
          | some parent => { v with selected := some parent }
          | none => v).ensure_selection_visible := by
  unfold CommentView.collapse_selected
  simp only [hs, he]

/-- C9: `collapse_selected` semantics.  With a visible in-arena selection
`s` (entry `e`): if `e` is expanded and has children, only its `expanded`
flag is cleared (selection and every other node untouched); otherwise the
selection moves to `e`'s parent when it has one and nothing changes when
it does not; in every case the entries of all other nodes are unchanged. -/
theorem commentView_collapse_selected (v : CommentView) (s : Nat)
    (e : CommentEntry) (hwf : ParentsBelow v.entries)
    (hs : v.selected = some s) (he : v.entries.get? s = some e)
    (hvis : v.is_visible s = true) :
    (e.expanded = true ∧ e.children ≠ [] →
        v.collapse_selected
          = { v with entries := listModify v.entries s (fun x => { x with expanded := false }) })
      ∧ (¬(e.expanded = true ∧ e.children ≠ []) →
          (∀ p, e.parent = some p →
              v.collapse_selected = { v with selected := some p })
            ∧ (e.parent = none → v.collapse_selected = v))
      ∧ (∀ j, j ≠ s →
          v.collapse_selected.entries.get? j = v.entries.get? j) := by
  have hcol : e.expanded = true ∧ e.children ≠ [] →
      v.collapse_selected
        = { v with entries := listModify v.entries s (fun x => { x with expanded := false }) } := by
    intro hcond
    rw [collapse_selected_some v s e hs he, if_pos hcond]
    set v' : CommentView :=
      { v with entries := listModify v.entries s (fun x => { x with expanded := false }) }
      with hv'
    have hnot : s ∉ ancestorChain v.entries (s + 1) s := fun hmem =>
      absurd (ancestorChain_lt hwf (s + 1) s s hmem) (lt_irrefl s)
    have hview : v'.is_visible s = true := by
      show visibleStep v'.entries (s + 1) s = true
      rw [hv']
      rw [visibleStep_listModify_expanded_notmem v.entries s false (s + 1) s hnot]
      exact hvis
    exact ensure_of_visible v' s hs hview
  have hparent : ¬(e.expanded = true ∧ e.children ≠ []) →
      (∀ p, e.parent = some p →
          v.collapse_selected = { v with selected := some p })
        ∧ (e.parent = none → v.collapse_selected = v) := by
    intro hcond
    constructor
    · intro p hp
      rw [collapse_selected_some v s e hs he, if_neg hcond, hp]
      have hps : parentOf v.entries s = some p := by
        unfold parentOf
        rw [he]
        exact hp
      have hpls : p < s := parentOf_lt hwf hps
      have hvp : v.is_visible p = true := by
        rw [CommentView.is_visible, visibleStep_eq_all] at hvis
        have hchain : ancestorChain v.entries (s + 1) s
            = p :: ancestorChain v.entries s p := by
          simp [ancestorChain, hps]
        rw [hchain, List.all_cons, Bool.and_eq_true] at hvis
        rw [CommentView.is_visible, visibleStep_eq_all]
        rw [ancestorChain_fuel hwf p (p + 1) s (by omega) (by omega)]
        exact hvis.2
      exact ensure_of_visible { v with selected := some p } p rfl hvp
    · intro hp
      rw [collapse_selected_some v s e hs he, if_neg hcond, hp]
      exact ensure_of_visible v s hs hvis
  refine ⟨hcol, hparent, ?_⟩
  intro j hj
  by_cases hcond : e.expanded = true ∧ e.children ≠ []
  · rw [hcol hcond]
    show (listModify v.entries s fun x => { x with expanded := false }).get? j
      = v.entries.get? j
    rw [listModify_get?, if_neg hj]
  · cases hp : e.parent with
    | some p => rw [((hparent hcond).1 p hp)]
    | none => rw [(hparent hcond).2 hp]

/-- C9 witness: collapsing the selected expanded root of
`sampleTreeCollapse` clears exactly its `expanded` flag. -/
theorem commentView_collapse_selected_witness :
    ((sampleTreeCollapse.entries.get ⟨0, by decide⟩).expanded = true
        ∧ (sampleTreeCollapse.entries.get ⟨0, by decide⟩).children ≠ [] →
        sampleTreeCollapse.collapse_selected
          = { sampleTreeCollapse with
              entries := listModify sampleTreeCollapse.entries 0
                (fun x => { x with expanded := false }) })
      ∧ (¬((sampleTreeCollapse.entries.get ⟨0, by decide⟩).expanded = true
            ∧ (sampleTreeCollapse.entries.get ⟨0, by decide⟩).children ≠ []) →
          (∀ p, (sampleTreeCollapse.entries.get ⟨0, by decide⟩).parent = some p →
              sampleTreeCollapse.collapse_selected
                = { sampleTreeCollapse with selected := some p })
            ∧ ((sampleTreeCollapse.entries.get ⟨0, by decide⟩).parent = none →
                sampleTreeCollapse.collapse_selected = sampleTreeCollapse))
      ∧ (∀ j, j ≠ 0 →
          sampleTreeCollapse.collapse_selected.entries.get? j
            = sampleTreeCollapse.entries.get? j) :=
  commentView_collapse_selected sampleTreeCollapse 0
    (sampleTreeCollapse.entries.get ⟨0, by decide⟩)
    (parentsBelow_of_b _ (by decide)) (by decide) (by decide) (by decide)

/-! ### Event correlation (C1) -/

theorem store_active_pending_comment (s : State) :
    s.store_active_list_view.pending_comment = s.pending_comment := by
  unfold State.store_active_list_view
  cases s.mode <;> simp only []
  split <;> rfl

theorem store_active_pending_search (s : State) :
    s.store_active_list_view.pending_search = s.pending_search := by
  unfold State.store_active_list_view
  cases s.mode <;> simp only []
  split <;> rfl

theorem comments_event_noop_of_none (batch r : Nat)
    (res : Except String CommentThread) (s : State)
    (h : s.pending_comment = none) :
    s.handle_event batch (Event.Comments r res) = s := by
  simp [State.handle_event, h]

theorem search_event_noop_of_none (batch r : Nat)
    (res : Except String (List ListEntry × Bool)) (s : State)
    (h : s.pending_search = none) :
    s.handle_event batch (Event.SearchResults r res) = s := by
  simp [State.handle_event, h]

theorem comments_event_consumes (batch r : Nat)
    (res : Except String CommentThread) (s : State) (p : PendingComment)
    (hp : s.pending_comment = some p) (hr : p.request_id = r) :
    (s.handle_event batch (Event.Comments r res)).pending_comment = none := by
  simp only [State.handle_event, hp, hr]
  rw [if_neg (by simp)]
  cases res with
  | ok thread =>
    simp only []
    split <;> simp [store_active_pending_comment]
  | error e =>
    simp only []
    split <;> simp [State.set_transient_message]

theorem search_event_consumes (batch r : Nat)
    (res : Except String (List ListEntry × Bool)) (s : State)
    (p : PendingSearch) (hp : s.pending_search = some p)
    (hr : p.request_id = r) :
    (s.handle_event batch (Event.SearchResults r res)).pending_search
      = none := by
  simp only [State.handle_event, hp, hr]
  rw [if_neg (by simp)]
  cases res with
  | ok payload =>
    simp only [State.modify_list_view]
    repeat' split
    all_goals rfl
  | error e =>
    simp only []
    split <;> simp [State.set_transient_message]

/-- C1: Stale-event rejection.  When the stored pending token of a kind
carries the newer id `r2` (the token for `r1 < r2` was overwritten at
emission), applying `r2`'s event consumes the token, after which applying
`r1`'s event — or any duplicate delivery for `r2` — leaves the state
completely unchanged. -/
theorem stale_event_rejection (batch : Nat) (s : State) (r1 r2 : Nat)
    (res1 res2 : Except String CommentThread)
    (qres1 qres2 : Except String (List ListEntry × Bool))
    (h12 : r1 < r2) :
    (∀ p, s.pending_comment = some p → p.request_id = r2 →
        (s.handle_event batch (Event.Comments r2 res2)).pending_comment = none
          ∧ (s.handle_event batch (Event.Comments r2 res2)).handle_event batch
                (Event.Comments r1 res1)
              = s.handle_event batch (Event.Comments r2 res2)
          ∧ ∀ res, (s.handle_event batch (Event.Comments r2 res2)).handle_event
                batch (Event.Comments r2 res)
              = s.handle_event batch (Event.Comments r2 res2))
      ∧ (∀ p, s.pending_search = some p → p.request_id = r2 →
        (s.handle_event batch (Event.SearchResults r2 qres2)).pending_search
            = none
          ∧ (s.handle_event batch
                (Event.SearchResults r2 qres2)).handle_event batch
                (Event.SearchResults r1 qres1)
              = s.handle_event batch (Event.SearchResults r2 qres2)
          ∧ ∀ res, (s.handle_event batch
                (Event.SearchResults r2 qres2)).handle_event batch
                (Event.SearchResults r2 res)
              = s.handle_event batch (Event.SearchResults r2 qres2)) := by
  constructor
  · intro p hp hr
    have hcons := comments_event_consumes batch r2 res2 s p hp hr
    exact ⟨hcons, comments_event_noop_of_none batch r1 res1 _ hcons,
      fun res => comments_event_noop_of_none batch r2 res _ hcons⟩
  · intro p hp hr
    have hcons := search_event_consumes batch r2 qres2 s p hp hr
    exact ⟨hcons, search_event_noop_of_none batch r1 qres1 _ hcons,
      fun res => search_event_noop_of_none batch r2 res _ hcons⟩

/-- C1 witness: the rejection instantiated at request ids `1 < 2` with
concrete error results on `sampleStateStale`. -/
theorem stale_event_rejection_witness :
    (∀ p, sampleStateStale.pending_comment = some p → p.request_id = 2 →
        (sampleStateStale.handle_event 30
            (Event.Comments 2 (Except.error "b"))).pending_comment = none
          ∧ (sampleStateStale.handle_event 30
                (Event.Comments 2 (Except.error "b"))).handle_event 30
                (Event.Comments 1 (Except.error "a"))
              = sampleStateStale.handle_event 30
                (Event.Comments 2 (Except.error "b"))
          ∧ ∀ res, (sampleStateStale.handle_event 30
                (Event.Comments 2 (Except.error "b"))).handle_event 30
                (Event.Comments 2 res)
              = sampleStateStale.handle_event 30
                (Event.Comments 2 (Except.error "b")))
      ∧ (∀ p, sampleStateStale.pending_search = some p → p.request_id = 2 →
        (sampleStateStale.handle_event 30
            (Event.SearchResults 2 (Except.error "d"))).pending_search = none
          ∧ (sampleStateStale.handle_event 30
                (Event.SearchResults 2 (Except.error "d"))).handle_event 30
                (Event.SearchResults 1 (Except.error "c"))
              = sampleStateStale.handle_event 30
                (Event.SearchResults 2 (Except.error "d"))
          ∧ ∀ res, (sampleStateStale.handle_event 30
                (Event.SearchResults 2 (Except.error "d"))).handle_event 30
                (Event.SearchResults 2 res)
              = sampleStateStale.handle_event 30
                (Event.SearchResults 2 (Except.error "d"))) :=
  stale_event_rejection 30 sampleStateStale 1 2 (Except.error "a")
    (Except.error "b") (Except.error "c") (Except.error "d") (by decide)

/-! ### Tab-items events (C4, C5) -/

theorem modify_list_view_tab_loading (s : State) (i : Nat)
    (f : ListView ListEntry → ListView ListEntry) :
    (s.modify_list_view i f).tab_loading = s.tab_loading := by
  unfold State.modify_list_view
  repeat' split
  all_goals rfl

theorem modify_list_view_tabs (s : State) (i : Nat)
    (f : ListView ListEntry → ListView ListEntry) :
    (s.modify_list_view i f).tabs = s.tabs := by
  unfold State.modify_list_view
  repeat' split
  all_goals rfl

theorem modify_list_view_pending_effects (s : State) (i : Nat)
    (f : ListView ListEntry → ListView ListEntry) :
    (s.modify_list_view i f).pending_effects = s.pending_effects := by
  unfold State.modify_list_view
  repeat' split
  all_goals rfl

/-- C5 counterexample: an errored tab-items event does not change *only*
the status message — it also consumes the stored pending-selection target
of that tab (`[some 7]` becomes `[none]`). -/
theorem tab_items_error_counterexample :
    (sampleStateError.handle_event 30
        (Event.TabItems 0 (Except.error "boom"))).pending_selections
      ≠ sampleStateError.pending_selections := by decide

/-- C5 (amended): a tab-items event clears the tab's loading flag
unconditionally (success and error); on error the tab's list view, the
`tabs` vector (hence `has_more`) and every other field are left unchanged
except the status message, the transient message, the cleared loading
flag, and the consumed pending-selection slot of that tab. -/
theorem tab_items_event_recovery (batch : Nat) (s : State) (t : Nat)
    (err : String) (entries : List ListEntry) (hlt : t < s.tab_loading.length) :
    ((s.handle_event batch
          (Event.TabItems t (Except.ok entries))).tab_loading.get? t
        = some false
      ∧ (s.handle_event batch
          (Event.TabItems t (Except.error err))).tab_loading.get? t
        = some false)
    ∧ ((s.handle_event batch (Event.TabItems t (Except.error err))).tabs
          = s.tabs
      ∧ (s.handle_event batch (Event.TabItems t (Except.error err))).tab_views
          = s.tab_views
      ∧ (s.handle_event batch (Event.TabItems t (Except.error err))).mode
          = s.mode
      ∧ (s.handle_event batch (Event.TabItems t (Except.error err))).active_tab
          = s.active_tab
      ∧ (s.handle_event batch
            (Event.TabItems t (Except.error err))).list_view t
          = s.list_view t
      ∧ (s.handle_event batch
            (Event.TabItems t (Except.error err))).tab_loading
          = s.tab_loading.set t false
      ∧ (s.handle_event batch
            (Event.TabItems t (Except.error err))).pending_selections
          = s.pending_selections.set t none
      ∧ (s.handle_event batch (Event.TabItems t (Except.error err))).bookmarks
          = s.bookmarks
      ∧ (s.handle_event batch
            (Event.TabItems t (Except.error err))).pending_comment
          = s.pending_comment
      ∧ (s.handle_event batch
            (Event.TabItems t (Except.error err))).pending_search
          = s.pending_search
      ∧ (s.handle_event batch
            (Event.TabItems t (Except.error err))).pending_effects
          = s.pending_effects
      ∧ (s.handle_event batch
            (Event.TabItems t (Except.error err))).search_input
          = s.search_input
      ∧ (s.handle_event batch (Event.TabItems t (Except.error err))).help
          = s.help
      ∧ (s.handle_event batch
            (Event.TabItems t (Except.error err))).next_request_id
          = s.next_request_id
      ∧ (s.handle_event batch
            (Event.TabItems t (Except.error err))).bookmarks_tab_index
          = s.bookmarks_tab_index
      ∧ (s.handle_event batch
            (Event.TabItems t (Except.error err))).search_tab_index
          = s.search_tab_index
      ∧ (s.handle_event batch
            (Event.TabItems t (Except.error err))).list_height
          = s.list_height) := by
  have hloading : (s.handle_event batch
      (Event.TabItems t (Except.ok entries))).tab_loading
      = s.tab_loading.set t false := by
    simp only [State.handle_event]
    repeat' split
    all_goals simp [modify_list_view_tab_loading]
  have herr : ∀ {α : Type} (g : State → α),
      (∀ x m, g (x.set_transient_message m) = g x) →
      g (s.handle_event batch (Event.TabItems t (Except.error err)))
        = g { s with
              tab_loading := s.tab_loading.set t false
              pending_selections := s.pending_selections.set t none } := by
    intro α g hgt
    simp only [State.handle_event]
    split
    · exact hgt _ _
    · rfl
  refine ⟨⟨?_, ?_⟩, ?_, ?_, ?_, ?_, ?_, ?_, ?_, ?_, ?_, ?_, ?_, ?_, ?_, ?_,
    ?_, ?_, ?_⟩
  · rw [hloading, List.get?_set_eq_of_lt _ hlt]
  · rw [herr (fun x => x.tab_loading.get? t) (fun x m => rfl),
      List.get?_set_eq_of_lt _ hlt]
  · exact herr (fun x => x.tabs) (fun x m => rfl)
  · exact herr (fun x => x.tab_views) (fun x m => rfl)
  · exact herr (fun x => x.mode) (fun x m => rfl)
  · exact herr (fun x => x.active_tab) (fun x m => rfl)
  · exact herr (fun x => x.list_view t) (fun x m => rfl)
  · exact herr (fun x => x.tab_loading) (fun x m => rfl)
  · exact herr (fun x => x.pending_selections) (fun x m => rfl)
  · exact herr (fun x => x.bookmarks) (fun x m => rfl)
  · exact herr (fun x => x.pending_comment) (fun x m => rfl)
  · exact herr (fun x => x.pending_search) (fun x m => rfl)
  · exact herr (fun x => x.pending_effects) (fun x m => rfl)
  · exact herr (fun x => x.search_input) (fun x m => rfl)
  · exact herr (fun x => x.help) (fun x m => rfl)
  · exact herr (fun x => x.next_request_id) (fun x m => rfl)
  · exact herr (fun x => x.bookmarks_tab_index) (fun x m => rfl)
  · exact herr (fun x => x.search_tab_index) (fun x m => rfl)
  · exact herr (fun x => x.list_height) (fun x m => rfl)

/-- C5 witness: the recovery theorem instantiated on `sampleStateError`
(tab `0`, empty success page, error `"boom"`). -/
theorem tab_items_event_recovery_witness :
    0 < sampleStateError.tab_loading.length
      ∧ (
    ((sampleStateError.handle_event 30
          (Event.TabItems 0 (Except.ok []))).tab_loading.get? 0
        = some false
      ∧ (sampleStateError.handle_event 30
          (Event.TabItems 0 (Except.error "boom"))).tab_loading.get? 0
        = some false)
    ∧ ((sampleStateError.handle_event 30 (Event.TabItems 0 (Except.error "boom"))).tabs
          = sampleStateError.tabs
      ∧ (sampleStateError.handle_event 30 (Event.TabItems 0 (Except.error "boom"))).tab_views
          = sampleStateError.tab_views
      ∧ (sampleStateError.handle_event 30 (Event.TabItems 0 (Except.error "boom"))).mode
          = sampleStateError.mode
      ∧ (sampleStateError.handle_event 30 (Event.TabItems 0 (Except.error "boom"))).active_tab
          = sampleStateError.active_tab
      ∧ (sampleStateError.handle_event 30
            (Event.TabItems 0 (Except.error "boom"))).list_view 0
          = sampleStateError.list_view 0
      ∧ (sampleStateError.handle_event 30
            (Event.TabItems 0 (Except.error "boom"))).tab_loading
          = sampleStateError.tab_loading.set 0 false
      ∧ (sampleStateError.handle_event 30
            (Event.TabItems 0 (Except.error "boom"))).pending_selections
          = sampleStateError.pending_selections.set 0 none
      ∧ (sampleStateError.handle_event 30 (Event.TabItems 0 (Except.error "boom"))).bookmarks
          = sampleStateError.bookmarks
      ∧ (sampleStateError.handle_event 30
            (Event.TabItems 0 (Except.error "boom"))).pending_comment
          = sampleStateError.pending_comment
      ∧ (sampleStateError.handle_event 30
            (Event.TabItems 0 (Except.error "boom"))).pending_search
          = sampleStateError.pending_search
      ∧ (sampleStateError.handle_event 30
            (Event.TabItems 0 (Except.error "boom"))).pending_effects
          = sampleStateError.pending_effects
      ∧ (sampleStateError.handle_event 30
            (Event.TabItems 0 (Except.error "boom"))).search_input
          = sampleStateError.search_input
      ∧ (sampleStateError.handle_event 30 (Event.TabItems 0 (Except.error "boom"))).help
          = sampleStateError.help
      ∧ (sampleStateError.handle_event 30
            (Event.TabItems 0 (Except.error "boom"))).next_request_id
          = sampleStateError.next_request_id
      ∧ (sampleStateError.handle_event 30
            (Event.TabItems 0 (Except.error "boom"))).bookmarks_tab_index
          = sampleStateError.bookmarks_tab_index
      ∧ (sampleStateError.handle_event 30
            (Event.TabItems 0 (Except.error "boom"))).search_tab_index
          = sampleStateError.search_tab_index
      ∧ (sampleStateError.handle_event 30
            (Event.TabItems 0 (Except.error "boom"))).list_height
          = sampleStateError.list_height)) :=
  ⟨by decide, tab_items_event_recovery 30 sampleStateError 0 "boom" [] (by decide)⟩

theorem start_load_effects (s : State) (i : Nat) :
    ∀ e ∈ (s.start_load_for_tab i).pending_effects,
      e ∈ s.pending_effects
        ∨ ∃ cat off, e = Effect.FetchTabItems i cat off
            ∧ (s.tabs.get? i).map Tab.has_more = some true := by
  intro e he
  unfold State.start_load_for_tab at he
  cases htab : s.tabs.get? i with
  | none => rw [htab] at he; exact Or.inl he
  | some tab =>
    rw [htab] at he
    by_cases hm : tab.has_more
    · simp only [hm, Bool.not_true, Bool.false_eq_true, if_false] at he
      cases hfl : s.tab_loading.get? i with
      | none => rw [hfl] at he; exact Or.inl he
      | some flag =>
        rw [hfl] at he
        cases flag with
        | true => exact Or.inl he
        | false =>
          simp only [Bool.false_eq_true, if_false] at he
          rcases List.mem_append.mp (by
              revert he
              split <;> exact fun h => h) with hmem | hone
          · exact Or.inl hmem
          · rcases List.mem_singleton.mp hone with rfl
            exact Or.inr ⟨tab.category, (s.list_view i).elim 0 ListView.len,
              rfl, by simp [hm]⟩
    · simp only [Bool.not_eq_true'] at hm
      simp only [hm, Bool.not_false, if_true] at he
      exact Or.inl he

theorem ensure_item_effects (s : State) (i target : Nat) :
    ∀ e ∈ (s.ensure_item i target).pending_effects,
      e ∈ s.pending_effects
        ∨ ∃ cat off, e = Effect.FetchTabItems i cat off
            ∧ (s.tabs.get? i).map Tab.has_more = some true := by
  intro e he
  unfold State.ensure_item at he
  by_cases hlt : target < (s.list_view i).elim 0 ListView.len
  · rw [if_pos hlt] at he
    exact Or.inl he
  · rw [if_neg hlt] at he
    cases htab : s.tabs.get? i with
    | none => rw [htab] at he; exact Or.inl he
    | some tab =>
      rw [htab] at he
      by_cases hm : tab.has_more
      · simp only [hm, Bool.not_true, Bool.false_eq_true, if_false] at he
        set s1 : State :=
          (if i < s.pending_selections.length then
            { s with pending_selections :=
                s.pending_selections.set i (some target) }
          else s) with hs1
        have hs1pe : s1.pending_effects = s.pending_effects := by
          rw [hs1]; split <;> rfl
        have hs1tabs : s1.tabs = s.tabs := by
          rw [hs1]; split <;> rfl
        by_cases hload :
            ((s1.tab_loading.get? i).getD false : Bool)
        · simp only [hload, Bool.not_true, Bool.false_eq_true, if_false] at he
          exact Or.inl (hs1pe ▸ he)
        · simp only [Bool.not_eq_true'] at hload
          simp only [hload, Bool.not_false, if_true] at he
          rcases start_load_effects s1 i e he with hmem | ⟨cat, off, heq, hsm⟩
          · exact Or.inl (hs1pe ▸ hmem)
          · refine Or.inr ⟨cat, off, heq, ?_⟩
            rw [hs1tabs, htab] at hsm
            exact hsm
      · simp only [Bool.not_eq_true'] at hm
        simp only [hm, Bool.not_false, if_true] at he
        exact Or.inl he

theorem select_index_effects (s : State) (target : Nat) :
    ∀ e ∈ (s.select_index target).pending_effects,
      e ∈ s.pending_effects
        ∨ ∃ cat off,
            e = Effect.FetchTabItems (min s.active_tab (s.tabs.length - 1))
              cat off
            ∧ (s.tabs.get?
                (min s.active_tab (s.tabs.length - 1))).map Tab.has_more
              = some true := by
  intro e he
  unfold State.select_index at he
  by_cases hemp : s.tabs.isEmpty = true
  · rw [if_pos hemp] at he
    exact Or.inl he
  · rw [if_neg hemp] at he
    simp only [] at he
    split at he
    · exact ensure_item_effects s _ target e he
    · split at he
      · exact ensure_item_effects s _ target e he
      · rw [modify_list_view_pending_effects] at he
        exact ensure_item_effects s _ target e he

theorem select_index_no_fetch_exhausted (s : State) (target t : Nat)
    (hsm : (s.tabs.get? t).map Tab.has_more = some false)
    (hpe : s.pending_effects = []) :
    ∀ e ∈ (s.select_index target).pending_effects,
      ∀ cat off, e ≠ Effect.FetchTabItems t cat off := by
  intro e he cat off heq
  rcases select_index_effects s target e he with hmem | ⟨cat', off', heq', hsm'⟩
  · rw [hpe] at hmem
    exact absurd hmem (List.not_mem_nil e)
  · rw [heq] at heq'
    have hti : t = min s.active_tab (s.tabs.length - 1) := by
      cases heq'
      rfl
    rw [← hti] at hsm'
    rw [hsm] at hsm'
    cases hsm'

/-- C4: Pagination termination.  After a successful tab-items event the
tab's `has_more` is true exactly when the page length reached the
requested batch size; and once `has_more` is false for a tab, no
selection-movement command emits a fetch effect for that tab (assuming
the dispatch precondition of an empty pending-effects list). -/
theorem pagination_termination (batch : Nat) (s : State) (t : Nat)
    (entries : List ListEntry) (c : Command)
    (hc : c = Command.SelectNext ∨ c = Command.SelectPrevious
        ∨ c = Command.PageDown ∨ c = Command.PageUp
        ∨ c = Command.SelectFirst) :
    (t < s.tabs.length →
        (((s.handle_event batch
              (Event.TabItems t (Except.ok entries))).tabs.get? t).map
            Tab.has_more = some true
          ↔ batch ≤ entries.length))
      ∧ ((s.tabs.get? t).map Tab.has_more = some false →
          s.pending_effects = [] →
          ∀ e ∈ (s.dispatch_command c).1.effects,
            ∀ cat off, e ≠ Effect.FetchTabItems t cat off) := by
  constructor
  · intro hlen
    have htabs : (s.handle_event batch
        (Event.TabItems t (Except.ok entries))).tabs
        = listModify s.tabs t
            (fun tab => { tab with has_more := entries.length ≥ batch }) := by
      simp only [State.handle_event]
      repeat' split
      all_goals simp [modify_list_view_tabs]
    rw [htabs, listModify_get?, if_pos rfl]
    cases htab : s.tabs.get? t with
    | none => exact absurd (List.get?_eq_none.mp htab) (by omega)
    | some tab =>
      simp only [Option.map_some']
      constructor
      · intro h
        have := Option.some.inj h
        simpa [ge_iff_le] using of_decide_eq_true this
      · intro h
        simp [ge_iff_le, h]
  · intro hsm hpe e he cat off
    rcases hc with rfl | rfl | rfl | rfl | rfl
    · simp only [State.dispatch_command, State.applyCommand,
        State.select_next] at he
      by_cases hemp : s.tabs.isEmpty = true
      · rw [if_pos hemp, hpe] at he
        exact absurd he (List.not_mem_nil e)
      · rw [if_neg hemp] at he
        exact select_index_no_fetch_exhausted s _ t hsm hpe e he cat off
    · simp only [State.dispatch_command, State.applyCommand,
        State.select_previous] at he
      by_cases hemp : s.tabs.isEmpty = true
      · rw [if_pos hemp, hpe] at he
        exact absurd he (List.not_mem_nil e)
      · rw [if_neg hemp] at he
        exact select_index_no_fetch_exhausted s _ t hsm hpe e he cat off
    · simp only [State.dispatch_command, State.applyCommand,
        State.page_down] at he
      by_cases hemp : s.tabs.isEmpty = true
      · rw [if_pos hemp, hpe] at he
        exact absurd he (List.not_mem_nil e)
      · rw [if_neg hemp] at he
        exact select_index_no_fetch_exhausted s _ t hsm hpe e he cat off
    · simp only [State.dispatch_command, State.applyCommand,
        State.page_up] at he
      by_cases hemp : s.tabs.isEmpty = true
      · rw [if_pos hemp, hpe] at he
        exact absurd he (List.not_mem_nil e)
      · rw [if_neg hemp] at he
        exact select_index_no_fetch_exhausted s _ t hsm hpe e he cat off
    · simp only [State.dispatch_command, State.applyCommand] at he
      exact select_index_no_fetch_exhausted s 0 t hsm hpe e he cat off

/-- C4 witness: instantiated on `sampleStatePagination` with a short
(empty) page at batch size `30` and the `SelectNext` command. -/
theorem pagination_termination_witness :
    (0 < sampleStatePagination.tabs.length →
        (((sampleStatePagination.handle_event 30
              (Event.TabItems 0 (Except.ok []))).tabs.get? 0).map
            Tab.has_more = some true
          ↔ 30 ≤ ([] : List ListEntry).length))
      ∧ ((sampleStatePagination.tabs.get? 0).map Tab.has_more = some false →
          sampleStatePagination.pending_effects = [] →
          ∀ e ∈ (sampleStatePagination.dispatch_command
              Command.SelectNext).1.effects,
            ∀ cat off, e ≠ Effect.FetchTabItems 0 cat off) :=
  pagination_termination 30 sampleStatePagination 0 [] Command.SelectNext
    (Or.inl rfl)

/-! ### Dispatch effect exactness (C6) -/

theorem bookmarks_modify_list_view (s : State) (i : Nat)
    (f : ListView ListEntry → ListView ListEntry) :
    (s.modify_list_view i f).bookmarks = s.bookmarks := by
  unfold State.modify_list_view
  repeat' split
  all_goals rfl

theorem bookmarks_store_active (s : State) :
    s.store_active_list_view.bookmarks = s.bookmarks := by
  unfold State.store_active_list_view
  repeat' split
  all_goals rfl

theorem bookmarks_restore_active (s : State) :
    s.restore_active_list_view.bookmarks = s.bookmarks := by
  unfold State.restore_active_list_view
  repeat' split
  all_goals rfl

theorem bookmarks_set_transient (s : State) (m : String) :
    (s.set_transient_message m).bookmarks = s.bookmarks := rfl

theorem bookmarks_start_load (s : State) (i : Nat) :
    (s.start_load_for_tab i).bookmarks = s.bookmarks := by
  unfold State.start_load_for_tab
  simp only []
  repeat' split
  all_goals rfl

theorem bookmarks_ensure_item (s : State) (i target : Nat) :
    (s.ensure_item i target).bookmarks = s.bookmarks := by
  unfold State.ensure_item
  simp only []
  repeat' split
  all_goals simp [bookmarks_start_load]

theorem bookmarks_select_index (s : State) (target : Nat) :
    (s.select_index target).bookmarks = s.bookmarks := by
  unfold State.select_index
  simp only []
  repeat' split
  all_goals simp [bookmarks_modify_list_view, bookmarks_ensure_item]

theorem bookmarks_select_next (s : State) :
    s.select_next.bookmarks = s.bookmarks := by
  unfold State.select_next
  simp only []
  split
  · rfl
  · exact bookmarks_select_index s _

theorem bookmarks_select_previous (s : State) :
    s.select_previous.bookmarks = s.bookmarks := by
  unfold State.select_previous
  simp only []
  split
  · rfl
  · exact bookmarks_select_index s _

theorem bookmarks_page_down (s : State) :
    s.page_down.bookmarks = s.bookmarks := by
  unfold State.page_down
  simp only []
  split
  · rfl
  · exact bookmarks_select_index s _

theorem bookmarks_page_up (s : State) :
    s.page_up.bookmarks = s.bookmarks := by
  unfold State.page_up
  simp only []
  split
  · rfl
  · exact bookmarks_select_index s _

theorem bookmarks_switch_tab_left (s : State) :
    s.switch_tab_left.bookmarks = s.bookmarks := by
  unfold State.switch_tab_left
  simp only []
  split
  · rfl
  · rw [bookmarks_restore_active]
    exact bookmarks_store_active s

theorem bookmarks_switch_tab_right (s : State) :
    s.switch_tab_right.bookmarks = s.bookmarks := by
  unfold State.switch_tab_right
  simp only []
  split
  · rfl
  · rw [bookmarks_restore_active]
    exact bookmarks_store_active s

theorem bookmarks_open_comments (s : State) :
    s.open_comments.bookmarks = s.bookmarks := by
  unfold State.open_comments
  simp only []
  repeat' split
  all_goals rfl

theorem bookmarks_open_current (s : State) :
    s.open_current_in_browser.bookmarks = s.bookmarks := by
  unfold State.open_current_in_browser
  repeat' split
  all_goals rfl

theorem bookmarks_open_comment_link (s : State) :
    s.open_comment_link.bookmarks = s.bookmarks := by
  unfold State.open_comment_link
  repeat' split
  all_goals rfl

theorem bookmarks_close_comments (s : State) :
    s.close_comments.bookmarks = s.bookmarks := by
  unfold State.close_comments
  simp only []
  split
  all_goals simp [bookmarks_restore_active]

theorem bookmarks_start_search (s : State) :
    s.start_search.bookmarks = s.bookmarks := by
  unfold State.start_search State.update_search_message
  repeat' split
  all_goals rfl

theorem bookmarks_cancel_search (s : State) :
    s.cancel_search.bookmarks = s.bookmarks := by
  unfold State.cancel_search
  repeat' split
  all_goals rfl

theorem bookmarks_ensure_search_tab (s : State) :
    s.ensure_search_tab.1.bookmarks = s.bookmarks := by
  unfold State.ensure_search_tab
  repeat' split
  all_goals rfl

theorem bookmarks_ssPrepareTab (s : State) (tab_index : Nat) :
    (s.ssPrepareTab tab_index).bookmarks = s.bookmarks := by
  unfold State.ssPrepareTab
  simp only []
  repeat' split
  all_goals
    simp [bookmarks_modify_list_view, bookmarks_restore_active,
      bookmarks_store_active]

theorem bookmarks_ssMarkPending (s : State) (tab_index : Nat)
    (query : String) :
    (s.ssMarkPending tab_index query).bookmarks = s.bookmarks := rfl

theorem bookmarks_submit_search (s : State) :
    s.submit_search.bookmarks = s.bookmarks := by
  unfold State.submit_search
  simp only []
  repeat' split
  all_goals
    simp [bookmarks_ssPrepareTab, bookmarks_ssMarkPending,
      bookmarks_restore_active, bookmarks_ensure_search_tab]

theorem applyCommand_bookmarks (s : State) (c : Command)
    (hc : c ≠ Command.ToggleBookmark) :
    (s.applyCommand c).1.bookmarks = s.bookmarks := by
  cases c with
  | Quit => rfl
  | ShowHelp => simp only [State.applyCommand]
  | HideHelp => simp only [State.applyCommand]
  | StartSearch => exact bookmarks_start_search s
  | CancelSearch => exact bookmarks_cancel_search s
  | SubmitSearch => exact bookmarks_submit_search s
  | SwitchTabLeft => exact bookmarks_switch_tab_left s
  | SwitchTabRight => exact bookmarks_switch_tab_right s
  | SelectNext => exact bookmarks_select_next s
  | SelectPrevious => exact bookmarks_select_previous s
  | PageDown => exact bookmarks_page_down s
  | PageUp => exact bookmarks_page_up s
  | SelectFirst => exact bookmarks_select_index s 0
  | OpenComments => exact bookmarks_open_comments s
  | OpenCurrentInBrowser => exact bookmarks_open_current s
  | OpenCommentLink => exact bookmarks_open_comment_link s
  | CloseComments => exact bookmarks_close_comments s
  | ToggleBookmark => exact absurd rfl hc
  | None => rfl

/-- C6 counterexample: `dispatch_command` is not free of I/O — dispatching
`ToggleBookmark` on a state with a selected entry performs a bookmark-file
write (`Bookmarks::toggle` calls `persist`, i.e. `fs::write`, before
`dispatch_command` returns), recorded here in `fileWrites`. -/
theorem dispatch_no_io_counterexample :
    (sampleStateBookmark.dispatch_command
        Command.ToggleBookmark).2.bookmarks.fileWrites
      ≠ sampleStateBookmark.bookmarks.fileWrites := by decide

/-- C6 (amended): under the empty-pending-effects precondition,
`dispatch_command` returns exactly the effects the single command pushed
(in emission order, via `mem::take`), leaves the pending-effects list
empty afterwards, and performs no I/O — except that `ToggleBookmark`
persists the bookmark file. -/
theorem dispatch_effect_exactness (s : State) (c : Command)
    (hpre : s.pending_effects = []) :
    (s.dispatch_command c).2.pending_effects = []
      ∧ (s.dispatch_command c).1.effects
          = (s.applyCommand c).1.pending_effects
      ∧ (s.dispatch_command c).1.should_exit = (s.applyCommand c).2
      ∧ (c ≠ Command.ToggleBookmark →
          (s.dispatch_command c).2.bookmarks.fileWrites
            = s.bookmarks.fileWrites) := by
  refine ⟨rfl, rfl, rfl, ?_⟩
  intro hc
  show (s.applyCommand c).1.bookmarks.fileWrites = s.bookmarks.fileWrites
  rw [applyCommand_bookmarks s c hc]

/-- C6 witness: exactness instantiated on `sampleStateBookmark` with
`OpenComments` (which emits exactly one fetch effect). -/
theorem dispatch_effect_exactness_witness :
    sampleStateBookmark.pending_effects = []
      ∧ ((sampleStateBookmark.dispatch_command
            Command.OpenComments).2.pending_effects = []
        ∧ (sampleStateBookmark.dispatch_command
            Command.OpenComments).1.effects
          = (sampleStateBookmark.applyCommand
              Command.OpenComments).1.pending_effects
        ∧ (sampleStateBookmark.dispatch_command
            Command.OpenComments).1.should_exit
          = (sampleStateBookmark.applyCommand Command.OpenComments).2
        ∧ (Command.OpenComments ≠ Command.ToggleBookmark →
            (sampleStateBookmark.dispatch_command
                Command.OpenComments).2.bookmarks.fileWrites
              = sampleStateBookmark.bookmarks.fileWrites)) :=
  ⟨rfl, dispatch_effect_exactness sampleStateBookmark Command.OpenComments rfl⟩

theorem skeleton_refl (s : State) : SkeletonEq s s :=
  ⟨rfl, rfl, rfl, rfl, rfl, rfl⟩

theorem skeleton_trans {s1 s2 s3 : State} (h12 : SkeletonEq s1 s2)
    (h23 : SkeletonEq s2 s3) : SkeletonEq s1 s3 := by
  obtain ⟨a1, b1, c1, d1, e1, f1⟩ := h12
  obtain ⟨a2, b2, c2, d2, e2, f2⟩ := h23
  exact ⟨a1.trans a2, b1.trans b2, c1.trans c2, d1.trans d2, e1.trans e2,
    f1.trans f2⟩

theorem statewf_of_skeleton {s' s : State} (hwf : StateWF s)
    (hsk : SkeletonEq s' s) : StateWF s' := by
  obtain ⟨h1, h2, h3, h4, h5⟩ := hwf
  obtain ⟨a, b, c, d, e, f⟩ := hsk
  refine ⟨by omega, by omega, by omega, ?_, ?_⟩
  · intro i hi
    rw [e] at hi
    have := h4 i hi
    omega
  · intro i hi
    rw [f] at hi
    have := h5 i hi
    omega

theorem skeleton_modify_list_view (s : State) (i : Nat)
    (f : ListView ListEntry → ListView ListEntry) :
    SkeletonEq (s.modify_list_view i f) s := by
  unfold State.modify_list_view SkeletonEq
  repeat' split
  all_goals simp [listModify_length]

theorem skeleton_store_active (s : State) :
    SkeletonEq s.store_active_list_view s := by
  unfold State.store_active_list_view SkeletonEq
  repeat' split
  all_goals simp

theorem skeleton_restore_active (s : State) :
    SkeletonEq s.restore_active_list_view s := by
  unfold State.restore_active_list_view SkeletonEq
  repeat' split
  all_goals simp

theorem skeleton_set_transient (s : State) (m : String) :
    SkeletonEq (s.set_transient_message m) s := skeleton_refl _

theorem skeleton_close_comments (s : State) :
    SkeletonEq s.close_comments s := by
  unfold State.close_comments
  simp only []
  split
  · exact skeleton_trans (skeleton_refl _) (skeleton_restore_active s)
  · exact skeleton_restore_active s

theorem skeleton_update_search_message (s : State) :
    SkeletonEq s.update_search_message s := by
  unfold State.update_search_message SkeletonEq
  repeat' split
  all_goals simp

theorem skeleton_start_search (s : State) :
    SkeletonEq s.start_search s := by
  unfold State.start_search
  simp only []
  split
  · exact skeleton_refl s
  · exact skeleton_trans (skeleton_update_search_message _) (by unfold SkeletonEq; simp)

theorem skeleton_cancel_search (s : State) :
    SkeletonEq s.cancel_search s := by
  unfold State.cancel_search SkeletonEq
  repeat' split
  all_goals simp

theorem skeleton_start_load (s : State) (i : Nat) :
    SkeletonEq (s.start_load_for_tab i) s := by
  unfold State.start_load_for_tab SkeletonEq
  simp only []
  repeat' split
  all_goals simp

theorem skeleton_ensure_item (s : State) (i target : Nat) :
    SkeletonEq (s.ensure_item i target) s := by
  unfold State.ensure_item
  simp only []
  repeat' split
  all_goals
    first
      | exact skeleton_refl s
      | exact skeleton_trans (skeleton_start_load _ _)
          (by unfold SkeletonEq; simp)
      | (unfold SkeletonEq; simp)

theorem skeleton_select_index (s : State) (target : Nat) :
    SkeletonEq (s.select_index target) s := by
  unfold State.select_index
  simp only []
  repeat' split
  all_goals
    first
      | exact skeleton_refl s
      | exact skeleton_ensure_item s _ target
      | exact skeleton_trans (skeleton_modify_list_view _ _ _)
          (skeleton_ensure_item s _ target)

theorem skeleton_select_next (s : State) :
    SkeletonEq s.select_next s := by
  unfold State.select_next
  simp only []
  split
  · exact skeleton_refl s
  · exact skeleton_select_index s _

theorem skeleton_select_previous (s : State) :
    SkeletonEq s.select_previous s := by
  unfold State.select_previous
  simp only []
  split
  · exact skeleton_refl s
  · exact skeleton_select_index s _

theorem skeleton_page_down (s : State) :
    SkeletonEq s.page_down s := by
  unfold State.page_down
  simp only []
  split
  · exact skeleton_refl s
  · exact skeleton_select_index s _

theorem skeleton_page_up (s : State) :
    SkeletonEq s.page_up s := by
  unfold State.page_up
  simp only []
  split
  · exact skeleton_refl s
  · exact skeleton_select_index s _

theorem skeleton_switch_tab_left (s : State) :
    SkeletonEq s.switch_tab_left s := by
  unfold State.switch_tab_left
  simp only []
  split
  · exact skeleton_refl s
  · exact skeleton_trans (skeleton_restore_active _)
      (skeleton_trans (by unfold SkeletonEq; simp) (skeleton_store_active s))

theorem skeleton_switch_tab_right (s : State) :
    SkeletonEq s.switch_tab_right s := by
  unfold State.switch_tab_right
  simp only []
  split
  · exact skeleton_refl s
  · exact skeleton_trans (skeleton_restore_active _)
      (skeleton_trans ( by unfold SkeletonEq; simp) (skeleton_store_active s))

theorem skeleton_open_comments (s : State) :
    SkeletonEq s.open_comments s := by
  unfold State.open_comments
  simp only []
  repeat' split
  all_goals
    first
      | exact skeleton_refl s
      | (unfold SkeletonEq; simp)

theorem skeleton_open_current (s : State) :
    SkeletonEq s.open_current_in_browser s := by
  unfold State.open_current_in_browser SkeletonEq
  repeat' split
  all_goals simp

theorem skeleton_open_comment_link (s : State) :
    SkeletonEq s.open_comment_link s := by
  unfold State.open_comment_link SkeletonEq
  repeat' split
  all_goals simp

theorem skeleton_refresh_bookmarks (s : State) (i : Nat) :
    SkeletonEq (s.refresh_bookmarks_view i) s := by
  unfold State.refresh_bookmarks_view
  simp only []
  repeat' split
  all_goals
    first
      | exact skeleton_refl s
      | exact skeleton_modify_list_view s i _
      | (unfold SkeletonEq; simp)

theorem wf_ensure_bookmarks_tab (s : State) (hwf : StateWF s) :
    StateWF s.ensure_bookmarks_tab.1 := by
  obtain ⟨h1, h2, h3, h4, h5⟩ := hwf
  unfold State.ensure_bookmarks_tab
  cases hb : s.bookmarks_tab_index with
  | some index => exact ⟨h1, h2, h3, h4, h5⟩
  | none =>
    refine ⟨?_, ?_, ?_, ?_, ?_⟩ <;> (try intro j hj) <;>
      simp_all [List.length_append] <;> omega

theorem wf_ensure_search_tab (s : State) (hwf : StateWF s) :
    StateWF s.ensure_search_tab.1 := by
  obtain ⟨h1, h2, h3, h4, h5⟩ := hwf
  unfold State.ensure_search_tab
  cases hb : s.search_tab_index with
  | some index => exact ⟨h1, h2, h3, h4, h5⟩
  | none =>
    refine ⟨?_, ?_, ?_, ?_, ?_⟩ <;> (try intro j hj) <;>
      simp_all [List.length_append] <;> omega

theorem rbtAdjustActive_fields (s : State) (index : Nat) :
    (s.rbtAdjustActive index).tabs = s.tabs
      ∧ (s.rbtAdjustActive index).tab_views = s.tab_views
      ∧ (s.rbtAdjustActive index).tab_loading = s.tab_loading
      ∧ (s.rbtAdjustActive index).pending_selections = s.pending_selections
      ∧ (s.rbtAdjustActive index).bookmarks_tab_index = s.bookmarks_tab_index
      ∧ (s.rbtAdjustActive index).search_tab_index = s.search_tab_index := by
  unfold State.rbtAdjustActive
  repeat' split
  all_goals simp

theorem rbtShiftSearch_fields (s : State) (index : Nat) :
    (s.rbtShiftSearch index).tabs = s.tabs
      ∧ (s.rbtShiftSearch index).tab_views = s.tab_views
      ∧ (s.rbtShiftSearch index).tab_loading = s.tab_loading
      ∧ (s.rbtShiftSearch index).pending_selections = s.pending_selections
      ∧ (s.rbtShiftSearch index).bookmarks_tab_index
          = s.bookmarks_tab_index := by
  unfold State.rbtShiftSearch
  repeat' split
  all_goals simp

theorem rbtShiftSearch_search_bound (y : State) (index len : Nat)
    (hy : ∀ j, y.search_tab_index = some j → j < len) (hidx : index < len) :
    ∀ i, (y.rbtShiftSearch index).search_tab_index = some i → i < len - 1 := by
  intro i hi
  unfold State.rbtShiftSearch at hi
  cases hys : y.search_tab_index with
  | none =>
    rw [hys] at hi
    simp only [] at hi
    rw [hys] at hi
    cases hi
  | some j =>
    rw [hys] at hi
    simp only [] at hi
    have hjlen := hy j hys
    by_cases hje : j = index
    · rw [if_pos hje] at hi
      simp at hi
    · rw [if_neg hje] at hi
      by_cases hjg : j > index
      · rw [if_pos hjg] at hi
        have hji : j - 1 = i := by simpa using hi
        omega
      · rw [if_neg hjg] at hi
        have hji : j = i := by
          rw [hys] at hi
          exact Option.some.inj hi
        omega

theorem wf_rbtEraseVectors (x : State) (index : Nat)
    (e1 : x.tab_views.length = x.tabs.length)
    (e2 : x.tab_loading.length = x.tabs.length)
    (e3 : x.pending_selections.length = x.tabs.length)
    (hidx : index < x.tabs.length)
    (e4 : ∀ i, x.bookmarks_tab_index = some i → i < x.tabs.length - 1)
    (e5 : ∀ i, x.search_tab_index = some i → i < x.tabs.length - 1) :
    StateWF (x.rbtEraseVectors index) := by
  unfold State.rbtEraseVectors
  simp only []
  repeat' split
  all_goals
    (refine ⟨?_, ?_, ?_, ?_, ?_⟩ <;> (try intro j hj) <;>
      simp_all [List.length_eraseIdx] <;>
      first
        | omega
        | exact e4 j hj
        | exact e5 j hj)

theorem wf_rbtFinish (x : State) (hwf : StateWF x) :
    StateWF x.rbtFinish := by
  unfold State.rbtFinish
  split
  · refine statewf_of_skeleton ?_ (skeleton_restore_active _)
    obtain ⟨h1, h2, h3, h4, h5⟩ := hwf
    exact ⟨h1, h2, h3, h4, h5⟩
  · exact hwf

theorem wf_remove_bookmarks (s : State) (hwf : StateWF s) :
    StateWF s.remove_bookmarks_tab := by
  obtain ⟨h1, h2, h3, h4, h5⟩ := hwf
  unfold State.remove_bookmarks_tab
  cases hb : s.bookmarks_tab_index with
  | none => exact ⟨h1, h2, h3, h4, h5⟩
  | some index =>
    have hidx : index < s.tabs.length := h4 index hb
    apply wf_rbtFinish
    set s0 : State := { s with bookmarks_tab_index := none } with hs0
    have hwf0 : StateWF s0 := by
      refine ⟨h1, h2, h3, ?_, h5⟩
      intro i hi
      simp [hs0] at hi
    obtain ⟨a1, a2, a3, a4, a5, a6⟩ := rbtAdjustActive_fields s0 index
    obtain ⟨b1, b2, b3, b4, b5⟩ :=
      rbtShiftSearch_fields (s0.rbtAdjustActive index) index
    apply wf_rbtEraseVectors
    · rw [b2, b1, a2, a1]
      exact h1
    · rw [b3, b1, a3, a1]
      exact h2
    · rw [b4, b1, a4, a1]
      exact h3
    · rw [b1, a1]
      exact hidx
    · intro i hi
      rw [b5, a5] at hi
      simp [hs0] at hi
    · intro i hi
      have hbound := rbtShiftSearch_search_bound (s0.rbtAdjustActive index)
        index s.tabs.length ?_ hidx i hi
      · rw [b1, a1]
        exact hbound
      · intro j hj
        rw [a6] at hj
        exact h5 j hj

theorem wf_sync_bookmarks (s : State) (hwf : StateWF s) :
    StateWF s.sync_bookmarks_tab := by
  unfold State.sync_bookmarks_tab
  split
  · exact wf_remove_bookmarks s hwf
  · exact statewf_of_skeleton (wf_ensure_bookmarks_tab s hwf)
      (skeleton_refresh_bookmarks _ _)

theorem wf_toggle_list_bookmark (s : State) (hwf : StateWF s) :
    StateWF s.toggle_list_bookmark := by
  unfold State.toggle_list_bookmark
  simp only []
  repeat' split
  all_goals
    repeat'
      first
        | exact hwf
        | (refine statewf_of_skeleton ?_ (skeleton_set_transient _ _))
        | (apply wf_sync_bookmarks)
        | (refine statewf_of_skeleton ?_
            (by unfold SkeletonEq
                simp [List.length_set, listModify_length]))

theorem wf_toggle_comment_bookmark (s : State) (hwf : StateWF s) :
    StateWF s.toggle_comment_bookmark := by
  unfold State.toggle_comment_bookmark
  simp only []
  repeat' split
  all_goals
    repeat'
      first
        | exact hwf
        | (refine statewf_of_skeleton ?_ (skeleton_set_transient _ _))
        | (apply wf_sync_bookmarks)
        | (refine statewf_of_skeleton ?_
            (by unfold SkeletonEq
                simp [List.length_set, listModify_length]))

theorem wf_toggle_bookmark (s : State) (hwf : StateWF s) :
    StateWF s.toggle_bookmark := by
  unfold State.toggle_bookmark
  split
  · exact wf_toggle_list_bookmark s hwf
  · exact wf_toggle_comment_bookmark s hwf

theorem skeleton_store_chain (x s : State) (h : SkeletonEq x s) :
    SkeletonEq x.store_active_list_view s :=
  skeleton_trans (skeleton_store_active x) h

theorem skeleton_restore_chain (x s : State) (h : SkeletonEq x s) :
    SkeletonEq x.restore_active_list_view s :=
  skeleton_trans (skeleton_restore_active x) h

theorem skeleton_modify_chain (x : State) (i : Nat)
    (f : ListView ListEntry → ListView ListEntry) (s : State)
    (h : SkeletonEq x s) : SkeletonEq (x.modify_list_view i f) s :=
  skeleton_trans (skeleton_modify_list_view x i f) h

theorem skeleton_with_active_tab (x s : State) (t : Nat)
    (h : SkeletonEq x s) : SkeletonEq { x with active_tab := t } s := by
  obtain ⟨a, b, c, d, e, g⟩ := h
  exact ⟨a, b, c, d, e, g⟩

theorem skeleton_with_tab_views_set (x s : State) (i : Nat)
    (v : Option (ListView ListEntry)) (h : SkeletonEq x s) :
    SkeletonEq { x with tab_views := x.tab_views.set i v } s := by
  obtain ⟨a, b, c, d, e, g⟩ := h
  refine ⟨a, ?_, c, d, e, g⟩
  simpa [List.length_set] using b

theorem skeleton_with_tabs_listModify (x s : State) (t : Nat) (f : Tab → Tab)
    (h : SkeletonEq x s) :
    SkeletonEq { x with tabs := listModify x.tabs t f } s := by
  obtain ⟨a, b, c, d, e, g⟩ := h
  refine ⟨?_, b, c, d, e, g⟩
  simpa [listModify_length] using a

theorem skeleton_ssPrepareTab (s : State) (tab_index : Nat) :
    SkeletonEq (s.ssPrepareTab tab_index) s := by
  unfold State.ssPrepareTab
  simp only []
  repeat' split
  all_goals
    repeat'
      first
        | exact skeleton_refl _
        | exact skeleton_store_active _
        | (refine skeleton_restore_chain _ _ ?_)
        | (refine skeleton_store_chain _ _ ?_)
        | (refine skeleton_modify_chain _ _ _ _ ?_)
        | (refine skeleton_with_active_tab _ _ _ ?_)
        | (refine skeleton_with_tab_views_set _ _ _ _ ?_)
        | (refine skeleton_with_tabs_listModify _ _ _ _ ?_)

theorem skeleton_ssMarkPending (s : State) (tab_index : Nat)
    (query : String) : SkeletonEq (s.ssMarkPending tab_index query) s := by
  unfold State.ssMarkPending SkeletonEq
  simp [List.length_set]

theorem wf_submit_search (s : State) (hwf : StateWF s) :
    StateWF s.submit_search := by
  unfold State.submit_search
  simp only []
  repeat' split
  all_goals
    first
      | exact hwf
      | (refine statewf_of_skeleton hwf ?_
         unfold SkeletonEq
         simp)
      | (refine statewf_of_skeleton ?_ (skeleton_ssMarkPending _ _ _)
         refine statewf_of_skeleton ?_ (skeleton_ssPrepareTab _ _)
         apply wf_ensure_search_tab
         first
           | (refine statewf_of_skeleton ?_ (skeleton_restore_active _)
              refine statewf_of_skeleton hwf ?_
              unfold SkeletonEq
              simp)
           | (refine statewf_of_skeleton hwf ?_
              unfold SkeletonEq
              simp))

theorem skeleton_with_message (x s : State) (m : String)
    (h : SkeletonEq x s) : SkeletonEq { x with message := m } s := by
  obtain ⟨a, b, c, d, e, g⟩ := h
  exact ⟨a, b, c, d, e, g⟩

theorem skeleton_with_mode (x s : State) (m : Mode)
    (h : SkeletonEq x s) : SkeletonEq { x with mode := m } s := by
  obtain ⟨a, b, c, d, e, g⟩ := h
  exact ⟨a, b, c, d, e, g⟩

theorem skeleton_with_pending_search (x s : State)
    (p : Option PendingSearch) (h : SkeletonEq x s) :
    SkeletonEq { x with pending_search := p } s := by
  obtain ⟨a, b, c, d, e, g⟩ := h
  exact ⟨a, b, c, d, e, g⟩

theorem skeleton_with_pending_comment (x s : State)
    (p : Option PendingComment) (h : SkeletonEq x s) :
    SkeletonEq { x with pending_comment := p } s := by
  obtain ⟨a, b, c, d, e, g⟩ := h
  exact ⟨a, b, c, d, e, g⟩

theorem skeleton_with_tab_loading_set (x s : State) (i : Nat) (v : Bool)
    (h : SkeletonEq x s) :
    SkeletonEq { x with tab_loading := x.tab_loading.set i v } s := by
  obtain ⟨a, b, c, d, e, g⟩ := h
  refine ⟨a, b, ?_, d, e, g⟩
  simpa [List.length_set] using c

theorem skeleton_with_pending_selections_set (x s : State) (i : Nat)
    (v : Option Nat) (h : SkeletonEq x s) :
    SkeletonEq { x with pending_selections := x.pending_selections.set i v } s := by
  obtain ⟨a, b, c, d, e, g⟩ := h
  refine ⟨a, b, c, ?_, e, g⟩
  simpa [List.length_set] using d

theorem wf_applyCommand (s : State) (c : Command) (hwf : StateWF s) :
    StateWF (s.applyCommand c).1 := by
  cases c with
  | Quit => exact hwf
  | ShowHelp =>
    simp only [State.applyCommand]
    refine statewf_of_skeleton hwf ?_
    unfold SkeletonEq
    simp
  | HideHelp =>
    simp only [State.applyCommand]
    refine statewf_of_skeleton hwf ?_
    unfold SkeletonEq
    simp
  | StartSearch => exact statewf_of_skeleton hwf (skeleton_start_search s)
  | CancelSearch => exact statewf_of_skeleton hwf (skeleton_cancel_search s)
  | SubmitSearch => exact wf_submit_search s hwf
  | SwitchTabLeft =>
    exact statewf_of_skeleton hwf (skeleton_switch_tab_left s)
  | SwitchTabRight =>
    exact statewf_of_skeleton hwf (skeleton_switch_tab_right s)
  | SelectNext => exact statewf_of_skeleton hwf (skeleton_select_next s)
  | SelectPrevious =>
    exact statewf_of_skeleton hwf (skeleton_select_previous s)
  | PageDown => exact statewf_of_skeleton hwf (skeleton_page_down s)
  | PageUp => exact statewf_of_skeleton hwf (skeleton_page_up s)
  | SelectFirst => exact statewf_of_skeleton hwf (skeleton_select_index s 0)
  | OpenComments => exact statewf_of_skeleton hwf (skeleton_open_comments s)
  | OpenCurrentInBrowser =>
    exact statewf_of_skeleton hwf (skeleton_open_current s)
  | OpenCommentLink =>
    exact statewf_of_skeleton hwf (skeleton_open_comment_link s)
  | CloseComments => exact statewf_of_skeleton hwf (skeleton_close_comments s)
  | ToggleBookmark => exact wf_toggle_bookmark s hwf
  | None => exact hwf

theorem store_active_fieldEq (s : State) :
    s.store_active_list_view.tabs = s.tabs
      ∧ s.store_active_list_view.tab_views.length = s.tab_views.length
      ∧ s.store_active_list_view.tab_loading = s.tab_loading
      ∧ s.store_active_list_view.pending_selections = s.pending_selections
      ∧ s.store_active_list_view.bookmarks_tab_index = s.bookmarks_tab_index
      ∧ s.store_active_list_view.search_tab_index = s.search_tab_index := by
  unfold State.store_active_list_view
  repeat' split
  all_goals simp [List.length_set]

theorem restore_active_fieldEq (s : State) :
    s.restore_active_list_view.tabs = s.tabs
      ∧ s.restore_active_list_view.tab_views.length = s.tab_views.length
      ∧ s.restore_active_list_view.tab_loading = s.tab_loading
      ∧ s.restore_active_list_view.pending_selections = s.pending_selections
      ∧ s.restore_active_list_view.bookmarks_tab_index = s.bookmarks_tab_index
      ∧ s.restore_active_list_view.search_tab_index = s.search_tab_index := by
  unfold State.restore_active_list_view
  repeat' split
  all_goals simp [List.length_set]

theorem modify_list_view_fieldEq (s : State) (i : Nat)
    (f : ListView ListEntry → ListView ListEntry) :
    (s.modify_list_view i f).tabs = s.tabs
      ∧ (s.modify_list_view i f).tab_views.length = s.tab_views.length
      ∧ (s.modify_list_view i f).tab_loading = s.tab_loading
      ∧ (s.modify_list_view i f).pending_selections = s.pending_selections
      ∧ (s.modify_list_view i f).bookmarks_tab_index = s.bookmarks_tab_index
      ∧ (s.modify_list_view i f).search_tab_index = s.search_tab_index := by
  unfold State.modify_list_view
  repeat' split
  all_goals simp [listModify_length]

set_option maxHeartbeats 1000000 in
theorem wf_handle_event (batch : Nat) (s : State) (event : Event)
    (hwf : StateWF s) : StateWF (s.handle_event batch event) := by
  unfold State.handle_event
  cases event with
  | TabItems tab_index result =>
    simp only []
    repeat' split
    all_goals
      (refine statewf_of_skeleton hwf ?_
       refine ⟨?_, ?_, ?_, ?_, ?_, ?_⟩ <;>
         simp [State.set_transient_message, List.length_set,
           listModify_length, store_active_fieldEq, restore_active_fieldEq,
           modify_list_view_fieldEq])
  | SearchResults request_id result =>
    simp only []
    repeat' split
    all_goals
      (refine statewf_of_skeleton hwf ?_
       refine ⟨?_, ?_, ?_, ?_, ?_, ?_⟩ <;>
         simp [State.set_transient_message, List.length_set,
           listModify_length, store_active_fieldEq, restore_active_fieldEq,
           modify_list_view_fieldEq])
  | Comments request_id result =>
    simp only []
    repeat' split
    all_goals
      (refine statewf_of_skeleton hwf ?_
       refine ⟨?_, ?_, ?_, ?_, ?_, ?_⟩ <;>
         simp [State.set_transient_message, List.length_set,
           listModify_length, store_active_fieldEq, restore_active_fieldEq,
           modify_list_view_fieldEq])

set_option maxHeartbeats 1000000 in
theorem wf_new (tabs : List (Tab × ListView ListEntry))
    (bookmarks : Bookmarks) : StateWF (State.new tabs bookmarks) := by
  have hbase : ∀ bk : Bookmarks, StateWF
      { active_tab := 0
        bookmarks := bk
        bookmarks_tab_index := none
        help := HelpView.new
        list_height := 0
        message := LIST_STATUS
        mode := Mode.List (((tabs.map (fun t => some t.2)).get? 0).bind id |>.getD (ListView.default ListEntry))
        next_request_id := 0
        pending_comment := none
        pending_effects := []
        pending_search := none
        pending_selections := List.replicate (tabs.map Prod.fst).length none
        search_input := none
        search_tab_index := none
        tab_loading := List.replicate (tabs.map Prod.fst).length false
        tab_views := (tabs.map (fun t => some t.2)).set 0 none
        tabs := tabs.map Prod.fst
        transient_message := none } := by
    intro bk
    refine ⟨?_, ?_, ?_, ?_, ?_⟩ <;> (try intro j hj) <;>
      simp_all [List.length_set]
  unfold State.new
  simp only []
  split
  · refine statewf_of_skeleton ?_ (skeleton_refresh_bookmarks _ _)
    apply wf_ensure_bookmarks_tab
    exact hbase bookmarks
  · exact hbase bookmarks

theorem restore_active_keeps_active (s : State) :
    s.restore_active_list_view.active_tab = s.active_tab := by
  unfold State.restore_active_list_view
  repeat' split
  all_goals rfl

theorem rbtShiftSearch_active (s : State) (index : Nat) :
    (s.rbtShiftSearch index).active_tab = s.active_tab := by
  unfold State.rbtShiftSearch
  repeat' split
  all_goals rfl

theorem rbtEraseVectors_active (s : State) (index : Nat) :
    (s.rbtEraseVectors index).active_tab = s.active_tab := by
  unfold State.rbtEraseVectors
  simp only []
  repeat' split
  all_goals rfl

theorem rbtEraseVectors_search (s : State) (index : Nat) :
    (s.rbtEraseVectors index).search_tab_index = s.search_tab_index := by
  unfold State.rbtEraseVectors
  simp only []
  repeat' split
  all_goals rfl

theorem rbtEraseVectors_tabs_len (s : State) (index : Nat)
    (h : index < s.tabs.length) :
    (s.rbtEraseVectors index).tabs.length = s.tabs.length - 1 := by
  unfold State.rbtEraseVectors
  simp only []
  repeat' split
  all_goals (first
    | simp [List.length_eraseIdx, h]
    | omega)

theorem rbtFinish_active (s : State)
    (h : s.active_tab ≤ s.tabs.length - 1) :
    s.rbtFinish.active_tab = s.active_tab := by
  unfold State.rbtFinish
  split
  · rw [restore_active_keeps_active]
    simp [Nat.min_eq_left h]
  · rfl

theorem rbtFinish_search (s : State) :
    s.rbtFinish.search_tab_index = s.search_tab_index := by
  unfold State.rbtFinish
  split
  · exact (restore_active_fieldEq _).2.2.2.2.2
  · rfl

theorem rbtAdjustActive_shift (x : State) (b : Nat)
    (h : b < x.active_tab) :
    (x.rbtAdjustActive b).active_tab = x.active_tab - 1 := by
  unfold State.rbtAdjustActive
  rw [if_neg (by omega), if_pos (by omega)]

theorem rbtShiftSearch_shift (x : State) (b j : Nat)
    (hj : x.search_tab_index = some j) (hlt : b < j) :
    (x.rbtShiftSearch b).search_tab_index = some (j - 1) := by
  unfold State.rbtShiftSearch
  split
  next si heq =>
    rw [hj] at heq
    injection heq with heq
    subst heq
    rw [if_neg (by omega), if_pos (by omega)]
  next heq =>
    rw [hj] at heq
    exact Option.noConfusion heq

theorem remove_shifts_search (s : State) (b j : Nat)
    (hb : s.bookmarks_tab_index = some b)
    (hj : s.search_tab_index = some j) (hlt : b < j) :
    s.remove_bookmarks_tab.search_tab_index = some (j - 1) := by
  unfold State.remove_bookmarks_tab
  rw [hb]
  rw [rbtFinish_search, rbtEraseVectors_search]
  exact rbtShiftSearch_shift _ b j
    ((rbtAdjustActive_fields _ b).2.2.2.2.2.trans hj) hlt

theorem remove_shifts_active (s : State) (b : Nat)
    (hb : s.bookmarks_tab_index = some b)
    (hlt : b < s.active_tab) (hact : s.active_tab < s.tabs.length) :
    s.remove_bookmarks_tab.active_tab = s.active_tab - 1 := by
  unfold State.remove_bookmarks_tab
  rw [hb]
  have hadj : ((({ s with bookmarks_tab_index := none } : State)).rbtAdjustActive b).active_tab = s.active_tab - 1 :=
    rbtAdjustActive_shift _ b hlt
  have htabs1 : ((({ s with bookmarks_tab_index := none } : State)).rbtAdjustActive b).tabs = s.tabs :=
    (rbtAdjustActive_fields _ b).1
  have htabs2 : (((({ s with bookmarks_tab_index := none } : State)).rbtAdjustActive b).rbtShiftSearch b).tabs = s.tabs :=
    (rbtShiftSearch_fields _ b).1.trans htabs1
  have hlen : ((((({ s with bookmarks_tab_index := none } : State)).rbtAdjustActive b).rbtShiftSearch b).rbtEraseVectors b).tabs.length = s.tabs.length - 1 := by
    rw [rbtEraseVectors_tabs_len _ b (by rw [htabs2]; omega), htabs2]
  rw [rbtFinish_active _ (by
    rw [rbtEraseVectors_active, rbtShiftSearch_active, hadj, hlen]
    omega)]
  rw [rbtEraseVectors_active, rbtShiftSearch_active, hadj]

theorem stateWF_of_b (s : State) (h : stateWFB s = true) : StateWF s := by
  unfold stateWFB at h
  simp only [Bool.and_eq_true, beq_iff_eq] at h
  obtain ⟨⟨⟨⟨h1, h2⟩, h3⟩, h4⟩, h5⟩ := h
  refine ⟨h1, h2, h3, ?_, ?_⟩
  · intro i hi
    rw [hi] at h4
    simpa using h4
  · intro i hi
    rw [hi] at h5
    simpa using h5

/-- C10: after `State::new`, after every `dispatch_command` and after
every `handle_event`, the four per-tab vectors (`tabs`, `tab_views`,
`tab_loading`, `pending_selections`) have equal length and the lazily
created bookmarks/search tab indices, when present, are in range; and
`remove_bookmarks_tab` shifts the stored search tab index and the active
tab index down by one when the removed bookmarks tab sits at a lower
index. -/
theorem parallel_tab_bookkeeping
    (tabs0 : List (Tab × ListView ListEntry)) (bk : Bookmarks)
    (batch : Nat) (s : State) (c : Command) (e : Event)
    (hwf : StateWF s) :
    StateWF (State.new tabs0 bk)
      ∧ StateWF (s.dispatch_command c).2
      ∧ StateWF (s.handle_event batch e)
      ∧ (∀ b j, s.bookmarks_tab_index = some b →
          s.search_tab_index = some j → b < j →
          s.remove_bookmarks_tab.search_tab_index = some (j - 1))
      ∧ (∀ b, s.bookmarks_tab_index = some b → b < s.active_tab →
          s.active_tab < s.tabs.length →
          s.remove_bookmarks_tab.active_tab = s.active_tab - 1) := by
  refine ⟨wf_new tabs0 bk, ?_, wf_handle_event batch s e hwf, ?_, ?_⟩
  · unfold State.dispatch_command
    simp only []
    refine statewf_of_skeleton (wf_applyCommand s c hwf) ?_
    exact ⟨rfl, rfl, rfl, rfl, rfl, rfl⟩
  · intro b j hb hj hlt
    exact remove_shifts_search s b j hb hj hlt
  · intro b hb h1 h2
    exact remove_shifts_active s b hb h1 h2

/-- C10 witness: the invariant instantiated on a concrete three-tab
well-formed state, a `SelectNext` dispatch and an error event. -/
theorem parallel_tab_bookkeeping_witness :
    stateWFB sampleStateC10 = true
      ∧ StateWF ((sampleStateC10.dispatch_command Command.SelectNext).2)
      ∧ StateWF (sampleStateC10.handle_event 30
          (Event.TabItems 0 (Except.error "e"))) := by
  have h := parallel_tab_bookkeeping [] { entries := [], ids := [], fileWrites := [] }
    30 sampleStateC10 Command.SelectNext (Event.TabItems 0 (Except.error "e"))
    (stateWF_of_b _ (by decide))
  exact ⟨by decide, h.2.1, h.2.2.1⟩
